import Mathlib

/-!
# Persistence of the node load (`itk::fem::LoadNode`)

A shallow embedding of `LoadNode::Read` and `LoadNode::Write`
(`Code/Numerics/FEM/itkFEMLoadNode.cxx`) together with the stream operations
they are written in, followed by the properties of the two functions.

Machine integers are `Int`/`Nat` with explicit ranges: a C++ `int` is a value
between `INT_MIN` and `INT_MAX`, an `unsigned` is a value below `UINT_RANGE`.
-/

namespace itk.fem

/-! ## Characters and decimal numerals -/

/-- The white-space class of the C locale. -/
def isspace (c : Char) : Bool :=
  c == ' ' || c == '\t' || c == '\n' || c == '\x0b' || c == '\x0c' || c == '\r'

/-- Leading white space removed (the `skipws` step of a formatted extraction). -/
def dropSpace : List Char → List Char
  | [] => []
  | c :: cs => if isspace c then dropSpace cs else c :: cs

/-- Value of a decimal digit character. -/
def digitVal (c : Char) : Option Nat :=
  if c == '0' then some 0 else if c == '1' then some 1 else if c == '2' then some 2
  else if c == '3' then some 3 else if c == '4' then some 4 else if c == '5' then some 5
  else if c == '6' then some 6 else if c == '7' then some 7 else if c == '8' then some 8
  else if c == '9' then some 9 else none

/-- Character of a decimal digit. -/
def digitChar (d : Nat) : Char :=
  match d with
  | 0 => '0' | 1 => '1' | 2 => '2' | 3 => '3' | 4 => '4'
  | 5 => '5' | 6 => '6' | 7 => '7' | 8 => '8' | _ => '9'

/-- The longest run of digits at the head of the text, and what follows it. -/
def spanDigits : List Char → List Nat × List Char
  | [] => ([], [])
  | c :: cs =>
    match digitVal c with
    | some d => (d :: (spanDigits cs).1, (spanDigits cs).2)
    | none => ([], c :: cs)

/-- Number denoted by a list of decimal digits, most significant first. -/
def ofDigits (ds : List Nat) : Nat := ds.foldl (fun a d => 10 * a + d) 0

/-- Worker of `natDigits`: the digits of `n` are put in front of `acc`. -/
def natDigitsAux : Nat → Nat → List Nat → List Nat
  | 0, _, acc => acc
  | fuel + 1, n, acc =>
    if n < 10 then n :: acc else natDigitsAux fuel (n / 10) (n % 10 :: acc)

/-- Decimal digits of a natural number, most significant first. -/
def natDigits (n : Nat) : List Nat := natDigitsAux (n + 1) n []

/-- Text that `operator<<` gives an unsigned number. -/
def natToChars (n : Nat) : List Char := (natDigits n).map digitChar

/-- Text that `operator<<` gives an `int`. -/
def intToChars (i : Int) : List Char :=
  if i < 0 then '-' :: natToChars i.natAbs else natToChars i.natAbs

/-- Largest value of a C++ `int`. -/
def INT_MAX : Int := 2147483647

/-- Smallest value of a C++ `int`. -/
def INT_MIN : Int := -2147483648

/-- Number of values of a C++ `unsigned`. -/
def UINT_RANGE : Int := 4294967296

/-! ## Input streams -/

/-- A `std::istream`: the characters not yet consumed, and whether `!f` holds
(`failbit` or `badbit` is set).  The end-of-file condition is `buf = []`. -/
structure IStream where
  buf : List Char
  fail : Bool
deriving DecidableEq, Repr

/-- The extraction `f >> n` for `int n`.  Nothing happens on a failed stream.
Otherwise leading white space is skipped, an optional sign and the longest run
of digits are consumed; without a digit, or with a value that does not fit an
`int`, the stream fails and `n` keeps its value. -/
def extractInt (n : Int) (f : IStream) : Int × IStream :=
  if f.fail then (n, f) else
  let s := dropSpace f.buf
  let neg : Bool := match s with
    | c :: _ => c == '-'
    | [] => false
  let s1 : List Char := match s with
    | c :: t => if c == '-' || c == '+' then t else s
    | [] => []
  let ds := (spanDigits s1).1
  let rest := (spanDigits s1).2
  if ds = [] then (n, ⟨rest, true⟩) else
  let v : Int := if neg then -(ofDigits ds : Int) else (ofDigits ds : Int)
  if INT_MIN ≤ v ∧ v ≤ INT_MAX then (v, ⟨rest, false⟩) else (n, ⟨rest, true⟩)

/-- Worker of `SkipWhiteSpace`; the flag tells whether a comment is being
skipped. -/
def skipBlank : Bool → List Char → List Char
  | _, [] => []
  | true, c :: cs => if c == '\n' then skipBlank false cs else skipBlank true cs
  | false, c :: cs =>
    if isspace c then skipBlank false cs
    else if c == '%' then skipBlank true cs
    else c :: cs

/-- Modelled from the spec: `SkipWhiteSpace` of `itkFEMUtility`, which is not
among the sources.  Section 4.2 has it skip the insignificant white space
before a token, and in the text format of section 6 every line ends with a
comment that starts at `%`, which a reader has to pass over as well: white
space and comments up to the end of their line are skipped for as long as the
stream is good. -/
def SkipWhiteSpace (f : IStream) : IStream :=
  if f.fail then f else ⟨skipBlank false f.buf, false⟩

/-! ## Output streams -/

/-- A `std::ostream`: the characters written so far, the number of characters
the sink still accepts (`none`: no limit), and whether `!f` holds. -/
structure OStream where
  out : List Char
  room : Option Nat
  fail : Bool
deriving DecidableEq, Repr

/-- An insertion `f << text` of a string literal or of a formatted number.
Nothing happens on a failed stream; a sink that cannot take the whole text
takes what fits and the stream fails. -/
def OStream.put (f : OStream) (s : List Char) : OStream :=
  if f.fail then f else
  match f.room with
  | none => ⟨f.out ++ s, none, false⟩
  | some r =>
    if s.length ≤ r then ⟨f.out ++ s, some (r - s.length), false⟩
    else ⟨f.out ++ s.take r, some 0, true⟩

/-! ## The force vector (`vnl_vector<Float>`) -/

/-- The text form of a magnitude.  Reading and printing a `double` is the
business of the C++ library, so both are parameters: `extract` is the
conversion behind `s >> x` once leading white space is gone, giving the value
and the text left over, or `none` when no number is found; `insert` is the
text `s << x` writes; `uninit` stands for an element never assigned. -/
structure FloatCodec (α : Type) where
  extract : List Char → Option (α × List Char)
  insert : α → List Char
  uninit : α

/-- The extraction `s >> x` of one magnitude; on failure `x` keeps its value. -/
def extractFloat {α : Type} (c : FloatCodec α) (x : α) (f : IStream) : α × IStream :=
  if f.fail then (x, f) else
  match c.extract (dropSpace f.buf) with
  | some (v, rest) => (v, ⟨rest, false⟩)
  | none => (x, ⟨dropSpace f.buf, true⟩)

/-- Modelled from the spec: `F.resize(n)` of the numeric vector
`vnl_vector<Float>`, which is not among the sources (step 4 of section 4.2:
resize the force vector to that length).  The count of `vnl_vector::resize` is
an `unsigned`, so the `int` that `Read` hands over is converted modulo
`UINT_RANGE`; the elements of the resized vector are not assigned yet. -/
def resize {α : Type} (c : FloatCodec α) (_F : List α) (n : Int) : List α :=
  List.replicate (n % UINT_RANGE).toNat c.uninit

/-- Modelled from the spec: `f >> F` of the numeric vector, which is not among
the sources (step 5 of section 4.2: parse exactly that many magnitudes into
the force vector): one extraction for each element the vector has, in order. -/
def readVector {α : Type} (c : FloatCodec α) : List α → IStream → List α × IStream
  | [], f => ([], f)
  | x :: xs, f =>
    ((extractFloat c x f).1 :: (readVector c xs (extractFloat c x f).2).1,
     (readVector c xs (extractFloat c x f).2).2)

/-- Modelled from the spec: `f << F` of the numeric vector, which is not among
the sources (section 6: space-separated magnitudes, no explicit delimiter
beyond whitespace). -/
def insertVector {α : Type} (c : FloatCodec α) : List α → OStream → OStream
  | [], f => f
  | [x], f => f.put (c.insert x)
  | x :: y :: xs, f => insertVector c (y :: xs) ((f.put (c.insert x)).put [' '])

/-! ## Exceptions -/

/-- The IO failure: where it was raised, the operation and a reason. -/
structure FEMExceptionIO where
  file : String
  line : Nat
  location : String
  moreDescription : String
deriving DecidableEq, Repr

/-- The reference-resolution failure: where it was raised, the operation, and
the base class and identifier of the object that was not found. -/
structure FEMExceptionObjectNotFound where
  file : String
  line : Nat
  location : String
  m_baseClassName : String
  m_GN : Int
deriving DecidableEq, Repr

/-- What a member function can throw. -/
inductive FEMException where
  | ioFailure (e : FEMExceptionIO)
  | objectNotFound (e : FEMExceptionObjectNotFound)
  | other (what : String)
deriving DecidableEq, Repr

/-- The value of `__FILE__` in `itkFEMLoadNode.cxx`. -/
def FILE : String := "itkFEMLoadNode.cxx"

/-! ## Nodes and the node collection -/

/-- Modelled from the spec: the Node entity, whose class is not among the
sources; section 3 identifies it by its GN, the one member the load uses. -/
structure Node where
  GN : Int
deriving DecidableEq, Repr

/-- Modelled from the spec: the Node Collection (`Node::ArrayType`), not among
the sources: an ordered collection searched by identifier.  `baseClassName` is
the name its `Find` reports for an object it does not find. -/
structure NodeArray where
  items : List Node
  baseClassName : String
deriving DecidableEq, Repr

/-- Modelled from the spec: `Find` of the Node Collection (sections 4.2 and 7):
the node with the identifier, or the reference-resolution failure carrying the
base-class name and the unresolved GN. -/
def NodeArray.Find (nodes : NodeArray) (gn : Int) :
    Except FEMExceptionObjectNotFound Node :=
  match nodes.items.find? (fun nd => nd.GN == gn) with
  | some nd => .ok nd
  | none => .error ⟨"itkFEMPArray.h", 0, "FEMPArray::Find() const", nodes.baseClassName, gn⟩

/-- The context handed to `Read`. -/
structure ReadInfoType where
  m_node : NodeArray
deriving DecidableEq, Repr

/-! ## The load and its parent -/

/-- The parent class of the load, whose `Read` and `Write` are not among the
sources: both are parameters.  `σ` is the parent's part of the object.  `Read`
gives the parent's part and the stream afterwards, and the exception if it
threw; `Write` gives the stream afterwards, and the exception if it threw. -/
structure Superclass (σ : Type) where
  Read : σ → IStream → ReadInfoType → σ × IStream × Option FEMException
  Write : σ → OStream → Int → OStream × Option FEMException

/-- A `LoadNode` object: the parent's part, the pointer `node` (`none` is the
null pointer) and the force vector `F`. -/
structure LoadNode (σ α : Type) where
  base : σ
  node : Option Node
  F : List α

/-- What a call of `Read` leaves behind: the object, the stream, and the
exception if one was thrown. -/
structure ReadResult (σ α : Type) where
  self : LoadNode σ α
  f : IStream
  thrown : Option FEMException

/-- The label `out:` of `LoadNode::Read` and the check that follows it. -/
def LoadNode.Read.out {σ α : Type} (self : LoadNode σ α) (f : IStream) : ReadResult σ α :=
  if f.fail then
    ⟨self, f, some (.ioFailure ⟨FILE, 93, "LoadNode::Read()", "Error reading FEM load!"⟩)⟩
  else ⟨self, f, none⟩

/-- The function `LoadNode::Read(f, info)`. -/
def LoadNode.Read {σ α : Type} (P : Superclass σ) (c : FloatCodec α)
    (self : LoadNode σ α) (f : IStream) (info : ReadInfoType) : ReadResult σ α :=
  let nodes := info.m_node
  -- first call the parent's read function
  match P.Read self.base f info with
  | (b, f, some e) => ⟨{ self with base := b }, f, some e⟩
  | (b, f, none) =>
    let self := { self with base := b }
    -- read and set pointer to node that we're applying the load to
    let r := extractInt 0 (SkipWhiteSpace f)
    if r.2.fail then LoadNode.Read.out self r.2 else
    match nodes.Find r.1 with
    | .error e =>
      ⟨self, r.2, some (.objectNotFound
        ⟨FILE, 79, "LoadNode::Read()", e.m_baseClassName, e.m_GN⟩)⟩
    | .ok nd =>
      let self := { self with node := some nd }
      -- read and set the number of elements inside a force vector
      let r := extractInt r.1 (SkipWhiteSpace r.2)
      if r.2.fail then LoadNode.Read.out self r.2 else
      let self := { self with F := resize c self.F r.1 }
      -- read the force vector itself
      let v := readVector c self.F (SkipWhiteSpace r.2)
      LoadNode.Read.out { self with F := v.1 } v.2

/-- The function `LoadNode::Write(f, ofid)`; `OFID` is the identifier the
class was registered with.  The result is `none` when the null pointer is
dereferenced; otherwise it is the stream afterwards, and the exception if one
was thrown. -/
def LoadNode.Write {σ α : Type} (P : Superclass σ) (c : FloatCodec α) (OFID : Int)
    (self : LoadNode σ α) (f : OStream) (ofid : Int) :
    Option (OStream × Option FEMException) :=
  -- if not set already, set the ofid
  let ofid := if ofid < 0 then OFID else ofid
  -- first call the parent's write function
  match P.Write self.base f ofid with
  | (f, some e) => some (f, some e)
  | (f, none) =>
    match self.node with
    | none => none
    | some node =>
      -- write the actual Load data
      let f := (((f.put ['\t']).put (intToChars node.GN)).put
        "\t% GN of node on which the load acts".toList).put ['\n']
      let f := (insertVector c self.F
        (((f.put ['\t']).put (natToChars self.F.length)).put [' '])).put
        "\t% Force vector (first number is the size of a vector)\n".toList
      -- check for errors
      if f.fail then
        some (f, some (.ioFailure
          ⟨FILE, 119, "LoadNode::Write()", "Error writing FEM load!"⟩))
      else some (f, none)

/-! ## Instances used in the worked examples -/

/-- A magnitude written as a decimal numeral: `mantissa / 10 ^ scale`. -/
structure Decimal where
  mantissa : Int
  scale : Nat
deriving DecidableEq, Repr

/-- Reads a decimal numeral: optional sign, digits, optional point and
fraction digits. -/
def Decimal.extract (s : List Char) : Option (Decimal × List Char) :=
  let neg : Bool := match s with
    | c :: _ => c == '-'
    | [] => false
  let s1 : List Char := match s with
    | c :: t => if c == '-' || c == '+' then t else s
    | [] => []
  let ip := spanDigits s1
  if ip.1 = [] then none else
  match ip.2 with
  | [] => some (⟨if neg then -(ofDigits ip.1 : Int) else ofDigits ip.1, 0⟩, [])
  | d :: t =>
    if d == '.' then
      let fp := spanDigits t
      some (⟨if neg then -(ofDigits (ip.1 ++ fp.1) : Int) else ofDigits (ip.1 ++ fp.1),
        fp.1.length⟩, fp.2)
    else some (⟨if neg then -(ofDigits ip.1 : Int) else ofDigits ip.1, 0⟩, d :: t)

/-- Prints a decimal numeral. -/
def Decimal.insert (x : Decimal) : List Char :=
  let ds := natDigits x.mantissa.natAbs
  let ds := List.replicate (x.scale + 1 - ds.length) 0 ++ ds
  (if x.mantissa < 0 then ['-'] else []) ++ (ds.take (ds.length - x.scale)).map digitChar ++
    (if x.scale = 0 then [] else '.' :: (ds.drop (ds.length - x.scale)).map digitChar)

/-- Magnitudes as decimal numerals. -/
def decimalCodec : FloatCodec Decimal := ⟨Decimal.extract, Decimal.insert, ⟨0, 0⟩⟩

/-- A parent whose only field is the object's own GN, on a line of its own. -/
def lightObject : Superclass Int where
  Read := fun gn f _ =>
    let r := extractInt gn (SkipWhiteSpace f)
    if r.2.fail then
      (gn, r.2, some (.ioFailure ⟨"itkFEMLightObject.cxx", 0, "FEMLightObject::Read()",
        "Error reading FEM object!"⟩))
    else (r.1, r.2, none)
  Write := fun gn f _ =>
    let f := ((f.put ['\t']).put (intToChars gn)).put "\t% Global object number\n".toList
    if f.fail then
      (f, some (.ioFailure ⟨"itkFEMLightObject.cxx", 0, "FEMLightObject::Write()",
        "Error writing FEM object!"⟩))
    else (f, none)

/-- A parent without fields of its own. -/
def noFields : Superclass Unit where
  Read := fun u f _ => (u, f, none)
  Write := fun _ f _ => (f, none)

/-! ## Vocabulary of the statements -/

/-- The text is white space only. -/
def allSpace (w : List Char) : Bool := w.all isspace

/-- The text is empty or starts with a white-space character: a token that
precedes it ends there. -/
def boundary : List Char → Bool
  | [] => true
  | c :: _ => isspace c

/-- The text is empty or starts with a character that is no digit. -/
def noDigit : List Char → Bool
  | [] => true
  | c :: _ => (digitVal c).isNone

/-- The text `w` is skipped by `SkipWhiteSpace` whatever follows it. -/
def Blank (w : List Char) : Prop :=
  ∀ rest, skipBlank false (w ++ rest) = skipBlank false rest

/-- The text starts with a character at which `SkipWhiteSpace` stops. -/
def startsToken : List Char → Bool
  | [] => false
  | c :: _ => !isspace c && !(c == '%')

/-- The token `t` is read as the `int` `g` wherever no digit follows it. -/
def ReadsInt (t : List Char) (g : Int) : Prop :=
  startsToken t = true ∧ ∀ (n0 : Int) (rest : List Char), noDigit rest = true →
    extractInt n0 ⟨t ++ rest, false⟩ = (g, ⟨rest, false⟩)

/-- The token `t` is read as the magnitude `x` wherever a token can end. -/
def Reads {α : Type} (c : FloatCodec α) (t : List Char) (x : α) : Prop :=
  startsToken t = true ∧ ∀ rest, boundary rest = true → c.extract (t ++ rest) = some (x, rest)

/-- Text of a sequence of magnitude tokens, each given as the separator in
front of it, its text and its value. -/
def magnitudesText {α : Type} : List (List Char × List Char × α) → List Char
  | [] => []
  | t :: ts => t.1 ++ t.2.1 ++ magnitudesText ts

/-- Text of the two lines `LoadNode::Write` adds for a load on the node `nd`
with the force vector `F`. -/
def recordText {α : Type} (c : FloatCodec α) (nd : Node) (F : List α) : List Char :=
  '\t' :: intToChars nd.GN ++ "\t% GN of node on which the load acts\n".toList ++
    '\t' :: natToChars F.length ++ ' ' :: List.intercalate [' '] (F.map c.insert) ++
    "\t% Force vector (first number is the size of a vector)\n".toList

/-- The first step of `Read` after the parent's: the stream the parent leaves
is searched for the GN; the value read and the stream afterwards. -/
def afterGN (f : IStream) : Int × IStream := extractInt 0 (SkipWhiteSpace f)

/-- The second step of `Read`: the length of the vector; the value read and
the stream afterwards. -/
def afterLength (f : IStream) : Int × IStream :=
  extractInt (afterGN f).1 (SkipWhiteSpace (afterGN f).2)

/-- The integer `Read` parses second on the stream the parent leaves: the
token in front of the magnitudes. -/
def lengthToken (f : IStream) : Int := (afterLength f).1

/-- The third step of `Read`: the vector `F` is resized and read; the vector
and the stream afterwards. -/
def afterVector {α : Type} (c : FloatCodec α) (F : List α) (f : IStream) : List α × IStream :=
  readVector c (resize c F (afterLength f).1) (SkipWhiteSpace (afterLength f).2)

/-- The IO failure of `LoadNode::Read`. -/
def readFailure : FEMException :=
  .ioFailure ⟨FILE, 93, "LoadNode::Read()", "Error reading FEM load!"⟩

/-- A load with GN 1 on node 3 whose force vector is `[1.5, -2.25]`. -/
def exampleLoad : LoadNode Int Decimal := ⟨1, some ⟨3⟩, [⟨15, 1⟩, ⟨-225, 2⟩]⟩

/-- The text `Write` gives `exampleLoad` under the parent `lightObject`. -/
def exampleText : List Char :=
  ("\t1\t% Global object number\n" ++
    "\t3\t% GN of node on which the load acts\n" ++
    "\t2 1.5 -2.25\t% Force vector (first number is the size of a vector)\n").toList

/-- A load that has not been read yet, under the parent `lightObject`. -/
def freshLoad : LoadNode Int Decimal := ⟨0, none, []⟩

/-- A load that has not been read yet, under the parent `noFields`. -/
def emptyLoad : LoadNode Unit Decimal := ⟨(), none, []⟩

/-- The collection with the one node of GN 7. -/
def nodeSeven : ReadInfoType := ⟨⟨[⟨7⟩], "Node"⟩⟩

/-- A load on node 3 whose force vector has `k` elements `0`. -/
def zerosLoad (k : Nat) : LoadNode Unit Decimal :=
  ⟨(), some ⟨3⟩, List.replicate k ⟨0, 0⟩⟩

/-- A load under the parent `noFields` that already refers to node 3 and has
the force vector `[1.5]`. -/
def staleLoad : LoadNode Unit Decimal := ⟨(), some ⟨3⟩, [⟨15, 1⟩]⟩

/-- The collection with the one node of GN 3. -/
def oneNode : ReadInfoType := ⟨⟨[⟨3⟩], "Node"⟩⟩

/-- The text section 6 of the specification gives for the two lines of a load,
with the comment of the force vector as it words it. -/
def specRecordText {α : Type} (c : FloatCodec α) (nd : Node) (F : List α) : List Char :=
  '\t' :: intToChars nd.GN ++ "\t% GN of node on which the load acts\n".toList ++
    '\t' :: natToChars F.length ++ ' ' :: List.intercalate [' '] (F.map c.insert) ++
    "\t% Force vector (first number is its length)\n".toList

/-! ## Decimal numerals: printing and reading -/

theorem digitVal_digitChar (d : Nat) (h : d < 10) : digitVal (digitChar d) = some d := by
  interval_cases d <;> rfl

theorem isspace_digitChar (d : Nat) : isspace (digitChar d) = false := by
  unfold digitChar
  split <;> rfl

theorem digitChar_ne_percent (d : Nat) : (digitChar d == '%') = false := by
  unfold digitChar
  split <;> rfl

theorem digitChar_ne_minus (d : Nat) : (digitChar d == '-') = false := by
  unfold digitChar
  split <;> rfl

theorem digitChar_ne_plus (d : Nat) : (digitChar d == '+') = false := by
  unfold digitChar
  split <;> rfl

theorem spanDigits_noDigit (rest : List Char) (h : noDigit rest = true) :
    spanDigits rest = ([], rest) := by
  cases rest with
  | nil => rfl
  | cons c cs =>
    simp only [noDigit, Option.isNone_iff_eq_none] at h
    simp [spanDigits, h]

theorem noDigit_of_boundary (rest : List Char) (h : boundary rest = true) :
    noDigit rest = true := by
  cases rest with
  | nil => rfl
  | cons c cs =>
    simp only [boundary] at h
    simp only [noDigit, Option.isNone_iff_eq_none]
    unfold digitVal
    have hc : ∀ d : Char, isspace d = false → c ≠ d := by
      intro d hd hcd
      rw [hcd, hd] at h
      exact Bool.noConfusion h
    simp [hc '0' rfl, hc '1' rfl, hc '2' rfl, hc '3' rfl, hc '4' rfl, hc '5' rfl, hc '6' rfl,
      hc '7' rfl, hc '8' rfl, hc '9' rfl]

theorem spanDigits_digits (ds : List Nat) (rest : List Char) (hds : ∀ d ∈ ds, d < 10)
    (h : noDigit rest = true) :
    spanDigits (ds.map digitChar ++ rest) = (ds, rest) := by
  induction ds with
  | nil => simpa using spanDigits_noDigit rest h
  | cons d ds ih =>
    have hd : d < 10 := hds d (List.mem_cons_self _ _)
    have ih := ih (fun e he => hds e (List.mem_cons_of_mem _ he))
    simp [spanDigits, digitVal_digitChar d hd, ih]

theorem natDigitsAux_spec (fuel : Nat) : ∀ (n : Nat) (acc : List Nat), n < fuel →
    ∃ ds, natDigitsAux fuel n acc = ds ++ acc ∧ ds ≠ [] ∧ (∀ d ∈ ds, d < 10) ∧
      ofDigits ds = n := by
  induction fuel with
  | zero => intro n acc h; omega
  | succ fuel ih =>
    intro n acc h
    by_cases hn : n < 10
    · refine ⟨[n], ?_, by simp, by simpa using hn, by simp [ofDigits]⟩
      simp [natDigitsAux, hn]
    · obtain ⟨ds, h1, _, h3, h4⟩ := ih (n / 10) (n % 10 :: acc) (by omega)
      refine ⟨ds ++ [n % 10], ?_, by simp, ?_, ?_⟩
      · simp [natDigitsAux, hn, h1]
      · intro d hd
        rcases List.mem_append.mp hd with hd | hd
        · exact h3 d hd
        · simp only [List.mem_singleton] at hd
          omega
      · unfold ofDigits at h4 ⊢
        rw [List.foldl_append, h4]
        simp only [List.foldl_cons, List.foldl_nil]
        omega

theorem natDigits_spec (n : Nat) :
    natDigits n ≠ [] ∧ (∀ d ∈ natDigits n, d < 10) ∧ ofDigits (natDigits n) = n := by
  obtain ⟨ds, h1, h2, h3, h4⟩ := natDigitsAux_spec (n + 1) n [] (by omega)
  have : natDigits n = ds := by simpa [natDigits] using h1
  rw [this]
  exact ⟨h2, h3, h4⟩

theorem spanDigits_natToChars (n : Nat) (rest : List Char) (h : noDigit rest = true) :
    spanDigits (natToChars n ++ rest) = (natDigits n, rest) :=
  spanDigits_digits _ rest (natDigits_spec n).2.1 h

theorem natToChars_head (n : Nat) : ∃ d t, natToChars n = digitChar d :: t := by
  have h := (natDigits_spec n).1
  unfold natToChars
  cases hd : natDigits n with
  | nil => exact absurd hd h
  | cons d ds => exact ⟨d, ds.map digitChar, rfl⟩

theorem startsToken_intToChars (g : Int) (rest : List Char) :
    startsToken (intToChars g ++ rest) = true := by
  unfold intToChars
  split
  · rfl
  · obtain ⟨d, t, h⟩ := natToChars_head g.natAbs
    simp [h, startsToken, isspace_digitChar, digitChar_ne_percent]

theorem startsToken_natToChars (n : Nat) (rest : List Char) :
    startsToken (natToChars n ++ rest) = true := by
  obtain ⟨d, t, h⟩ := natToChars_head n
  simp [h, startsToken, isspace_digitChar, digitChar_ne_percent]

theorem dropSpace_startsToken (s : List Char) (h : startsToken s = true) : dropSpace s = s := by
  cases s with
  | nil => rfl
  | cons c cs =>
    simp only [startsToken, Bool.and_eq_true, Bool.not_eq_true'] at h
    simp [dropSpace, h.1]

theorem skipBlank_startsToken (s : List Char) (h : startsToken s = true) :
    skipBlank false s = s := by
  cases s with
  | nil => rfl
  | cons c cs =>
    simp only [startsToken, Bool.and_eq_true, Bool.not_eq_true'] at h
    simp [skipBlank, h.1, h.2]

/-- Reading back a printed `int`: the extraction returns the value and stops
where the numeral ends. -/
theorem extractInt_intToChars (n0 g : Int) (rest : List Char)
    (hg : INT_MIN ≤ g ∧ g ≤ INT_MAX) (h : noDigit rest = true) :
    extractInt n0 ⟨intToChars g ++ rest, false⟩ = (g, ⟨rest, false⟩) := by
  have hdrop := dropSpace_startsToken _ (startsToken_intToChars g rest)
  obtain ⟨hne, _, hval⟩ := natDigits_spec g.natAbs
  unfold extractInt
  simp only [Bool.false_eq_true, if_false, hdrop]
  by_cases hneg : g < 0
  · have hs : intToChars g ++ rest = '-' :: (natToChars g.natAbs ++ rest) := by
      simp [intToChars, hneg]
    rw [hs]
    simp only [beq_self_eq_true, Bool.true_or, if_true, spanDigits_natToChars _ _ h, hne,
      if_false, hval]
    have : -((g.natAbs : Nat) : Int) = g := by omega
    rw [this]
    simp only [hg.1, hg.2, and_self, if_true]
  · obtain ⟨d, t, hd⟩ := natToChars_head g.natAbs
    have hs : intToChars g ++ rest = natToChars g.natAbs ++ rest := by
      simp [intToChars, hneg]
    have hs2 : natToChars g.natAbs ++ rest = digitChar d :: (t ++ rest) := by simp [hd]
    rw [hs]
    have hsp := spanDigits_natToChars g.natAbs rest h
    rw [hs2] at hsp ⊢
    simp only [digitChar_ne_minus, digitChar_ne_plus, Bool.or_self, Bool.false_eq_true,
      if_false, hsp, hne, hval]
    have : ((g.natAbs : Nat) : Int) = g := by omega
    rw [this]
    simp only [hg.1, hg.2, and_self, if_true]

/-- The numeral `operator<<` prints for an `int` is read as that `int`. -/
theorem ReadsInt_intToChars (g : Int) (hg : INT_MIN ≤ g ∧ g ≤ INT_MAX) :
    ReadsInt (intToChars g) g :=
  ⟨by simpa using startsToken_intToChars g [],
    fun n0 rest h => extractInt_intToChars n0 g rest hg h⟩

/-! ## White space and comments -/

theorem Blank_nil : Blank [] := fun _ => rfl

theorem Blank_cons_space (c : Char) (w : List Char) (hc : isspace c = true) (hw : Blank w) :
    Blank (c :: w) := by
  intro rest
  simp only [List.cons_append, skipBlank, hc, if_true]
  exact hw rest

theorem Blank_allSpace (w : List Char) (h : allSpace w = true) : Blank w := by
  induction w with
  | nil => exact Blank_nil
  | cons c w ih =>
    simp only [allSpace, List.all_cons, Bool.and_eq_true] at h
    exact Blank_cons_space c w h.1 (ih h.2)

theorem Blank_append (w1 w2 : List Char) (h1 : Blank w1) (h2 : Blank w2) : Blank (w1 ++ w2) := by
  intro rest
  rw [List.append_assoc, h1, h2]

theorem skipBlank_comment (body rest : List Char) (h : ∀ ch ∈ body, (ch == '\n') = false) :
    skipBlank true (body ++ '\n' :: rest) = skipBlank false rest := by
  induction body with
  | nil => simp [skipBlank]
  | cons ch body ih =>
    have h1 := h ch (List.mem_cons_self _ _)
    simp only [List.cons_append, skipBlank, h1, Bool.false_eq_true, if_false]
    exact ih (fun d hd => h d (List.mem_cons_of_mem _ hd))

/-- A comment with the end of its line is skipped. -/
theorem Blank_comment (body : List Char) (h : ∀ ch ∈ body, (ch == '\n') = false) :
    Blank ('%' :: (body ++ ['\n'])) := by
  intro rest
  have : skipBlank false ('%' :: (body ++ ['\n']) ++ rest) =
      skipBlank true (body ++ '\n' :: rest) := by
    simp [skipBlank, isspace]
  rw [this, skipBlank_comment body rest h]

theorem dropSpace_allSpace_append (s t : List Char) (hs : allSpace s = true)
    (ht : startsToken t = true) : dropSpace (s ++ t) = t := by
  induction s with
  | nil => exact dropSpace_startsToken t ht
  | cons ch s ih =>
    simp only [allSpace, List.all_cons, Bool.and_eq_true] at hs
    simp only [List.cons_append, dropSpace, hs.1, if_true]
    exact ih hs.2

theorem boundary_append (s rest : List Char) (hs : allSpace s = true) (hne : s ≠ []) :
    boundary (s ++ rest) = true := by
  cases s with
  | nil => exact absurd rfl hne
  | cons ch s =>
    simp only [allSpace, List.all_cons, Bool.and_eq_true] at hs
    simpa [boundary] using hs.1

theorem startsToken_append (t rest : List Char) (h : startsToken t = true) :
    startsToken (t ++ rest) = true := by
  cases t with
  | nil => exact Bool.noConfusion h
  | cons ch t => simpa [startsToken] using h

/-! ## Reading a sequence of magnitudes -/

theorem boundary_magnitudesText {α : Type} (c : FloatCodec α)
    (ts : List (List Char × List Char × α)) (tail : List Char)
    (hts : ∀ u ∈ ts, allSpace u.1 = true ∧ u.1 ≠ [] ∧ Reads c u.2.1 u.2.2)
    (htail : boundary tail = true) : boundary (magnitudesText ts ++ tail) = true := by
  cases ts with
  | nil => simpa [magnitudesText] using htail
  | cons u ts =>
    have hu := hts u (List.mem_cons_self _ _)
    simp only [magnitudesText, List.append_assoc]
    exact boundary_append _ _ hu.1 hu.2.1

theorem readVector_tokens {α : Type} (c : FloatCodec α) (tail : List Char)
    (htail : boundary tail = true) :
    ∀ (ts : List (List Char × List Char × α)) (G : List α) (s t : List Char) (x : α),
      G.length = ts.length + 1 → allSpace s = true → Reads c t x →
      (∀ u ∈ ts, allSpace u.1 = true ∧ u.1 ≠ [] ∧ Reads c u.2.1 u.2.2) →
      readVector c G ⟨s ++ (t ++ (magnitudesText ts ++ tail)), false⟩ =
        (x :: ts.map (fun u => u.2.2), ⟨tail, false⟩) := by
  intro ts
  induction ts with
  | nil =>
    intro G s t x hG hs ht _
    match G, hG with
    | [y], _ =>
      have hd : dropSpace (s ++ (t ++ tail)) = t ++ tail :=
        dropSpace_allSpace_append s _ hs (startsToken_append t tail ht.1)
      simp [readVector, extractFloat, magnitudesText, hd, ht.2 tail htail]
  | cons u ts ih =>
    intro G s t x hG hs ht hts
    match G, hG with
    | y :: G', hG' =>
      have hu := hts u (List.mem_cons_self _ _)
      have hts' : ∀ v ∈ ts, allSpace v.1 = true ∧ v.1 ≠ [] ∧ Reads c v.2.1 v.2.2 :=
        fun v hv => hts v (List.mem_cons_of_mem _ hv)
      have hb : boundary (magnitudesText (u :: ts) ++ tail) = true :=
        boundary_magnitudesText c (u :: ts) tail hts htail
      have hd : dropSpace (s ++ (t ++ (magnitudesText (u :: ts) ++ tail))) =
          t ++ (magnitudesText (u :: ts) ++ tail) :=
        dropSpace_allSpace_append s _ hs (startsToken_append t _ ht.1)
      have hx : extractFloat c y ⟨s ++ (t ++ (magnitudesText (u :: ts) ++ tail)), false⟩ =
          (x, ⟨magnitudesText (u :: ts) ++ tail, false⟩) := by
        simp [extractFloat, hd, ht.2 _ hb]
      have hrec := ih G' u.1 u.2.1 u.2.2 (by simpa using hG') hu.1 hu.2.2 hts'
      have hm : magnitudesText (u :: ts) ++ tail = u.1 ++ (u.2.1 ++ (magnitudesText ts ++ tail)) := by
        simp [magnitudesText]
      rw [readVector, hx, hm, hrec]
      simp

theorem extractFloat_failed {α : Type} (c : FloatCodec α) (x : α) (f : IStream)
    (h : f.fail = true) : extractFloat c x f = (x, f) := by
  simp [extractFloat, h]

/-- A failed stream stays failed through the extraction of a vector. -/
theorem readVector_failed {α : Type} (c : FloatCodec α) :
    ∀ (G : List α) (f : IStream), f.fail = true → (readVector c G f).2.fail = true := by
  intro G
  induction G with
  | nil => intro f h; exact h
  | cons x xs ih =>
    intro f h
    rw [readVector, extractFloat_failed c x f h]
    exact ih f h

theorem readVector_append {α : Type} (c : FloatCodec α) :
    ∀ (G1 G2 : List α) (f : IStream),
      (readVector c (G1 ++ G2) f).2 = (readVector c G2 (readVector c G1 f).2).2 := by
  intro G1
  induction G1 with
  | nil => intro G2 f; rfl
  | cons x xs ih =>
    intro G2 f
    simp only [List.cons_append, readVector]
    exact ih G2 _

/-- When the extraction of one element fails, the stream is failed after the
whole vector. -/
theorem readVector_element_failed {α : Type} (c : FloatCodec α) (G1 G2 : List α) (x : α)
    (f : IStream) (h : (extractFloat c x (readVector c G1 f).2).2.fail = true) :
    (readVector c (G1 ++ x :: G2) f).2.fail = true := by
  rw [readVector_append]
  simp only [readVector]
  exact readVector_failed c G2 _ h

/-! ## Reading a well-formed record -/

theorem length_resize {α : Type} (c : FloatCodec α) (F : List α) (n : Int) :
    (resize c F n).length = (n % UINT_RANGE).toNat := by
  simp [resize]

theorem length_readVector {α : Type} (c : FloatCodec α) :
    ∀ (G : List α) (f : IStream), (readVector c G f).1.length = G.length := by
  intro G
  induction G with
  | nil => intro f; rfl
  | cons x xs ih => intro f; simp [readVector, ih]

/-- After the separator and the comment that follow the length, the vector is
read from the magnitudes. -/
theorem readVector_body {α : Type} (c : FloatCodec α) (G : List α)
    (ts : List (List Char × List Char × α)) (tail : List Char)
    (hG : G.length = ts.length)
    (hts : ∀ u ∈ ts, allSpace u.1 = true ∧ u.1 ≠ [] ∧ Reads c u.2.1 u.2.2)
    (htail : boundary tail = true) :
    (readVector c G (SkipWhiteSpace ⟨magnitudesText ts ++ tail, false⟩)).1 =
        ts.map (fun u => u.2.2) ∧
      (readVector c G (SkipWhiteSpace ⟨magnitudesText ts ++ tail, false⟩)).2.fail = false := by
  cases ts with
  | nil =>
    have : G = [] := List.length_eq_zero.mp (by simpa using hG)
    subst this
    simp [readVector, SkipWhiteSpace]
  | cons u ts =>
    have hu := hts u (List.mem_cons_self _ _)
    have hts' : ∀ v ∈ ts, allSpace v.1 = true ∧ v.1 ≠ [] ∧ Reads c v.2.1 v.2.2 :=
      fun v hv => hts v (List.mem_cons_of_mem _ hv)
    have hm : magnitudesText (u :: ts) ++ tail = u.1 ++ (u.2.1 ++ (magnitudesText ts ++ tail)) := by
      simp [magnitudesText]
    have hsk : SkipWhiteSpace ⟨magnitudesText (u :: ts) ++ tail, false⟩ =
        ⟨[] ++ (u.2.1 ++ (magnitudesText ts ++ tail)), false⟩ := by
      simp only [SkipWhiteSpace, Bool.false_eq_true, if_false, hm, List.nil_append]
      rw [Blank_allSpace u.1 hu.1, skipBlank_startsToken _ (startsToken_append _ _ hu.2.2.1)]
    rw [hsk, readVector_tokens c tail htail ts G [] u.2.1 u.2.2 (by simpa using hG) rfl hu.2.2 hts']
    simp

/-- The result of `Read` on a record made of a token for the GN `g`, a token
for the length `n` and the magnitudes `ts`, when the collection has the
node. -/
theorem Read_record {σ α : Type} (P : Superclass σ) (c : FloatCodec α)
    (self : LoadNode σ α) (f : IStream) (info : ReadInfoType) (b : σ) (g n : Int)
    (w0 tg w1 tn : List Char) (ts : List (List Char × List Char × α)) (tail : List Char)
    (nd : Node)
    (hP : P.Read self.base f info =
      (b, ⟨w0 ++ (tg ++ (w1 ++ (tn ++ (magnitudesText ts ++ tail)))), false⟩, none))
    (hg : ReadsInt tg g) (hn : ReadsInt tn n)
    (hlen : ts.length = (n % UINT_RANGE).toNat)
    (hw0 : Blank w0) (hw1 : Blank w1) (hw1d : w1 ≠ [] ∧ noDigit w1 = true)
    (hts : ∀ u ∈ ts, allSpace u.1 = true ∧ u.1 ≠ [] ∧ Reads c u.2.1 u.2.2)
    (htail : boundary tail = true)
    (hfind : info.m_node.Find g = .ok nd) :
    (LoadNode.Read P c self f info).thrown = none ∧
      (LoadNode.Read P c self f info).self.node = some nd ∧
      (LoadNode.Read P c self f info).self.F = ts.map (fun u => u.2.2) ∧
      (LoadNode.Read P c self f info).self.base = b := by
  have hnd1 : noDigit (w1 ++ (tn ++ (magnitudesText ts ++ tail))) = true := by
    cases w1 with
    | nil => exact absurd rfl hw1d.1
    | cons ch w => simpa [noDigit] using hw1d.2
  have hnd2 : noDigit (magnitudesText ts ++ tail) = true :=
    noDigit_of_boundary _ (boundary_magnitudesText c ts tail hts htail)
  have e1 : extractInt 0 (SkipWhiteSpace
      ⟨w0 ++ (tg ++ (w1 ++ (tn ++ (magnitudesText ts ++ tail)))), false⟩) =
      (g, ⟨w1 ++ (tn ++ (magnitudesText ts ++ tail)), false⟩) := by
    simp only [SkipWhiteSpace, Bool.false_eq_true, if_false]
    rw [hw0, skipBlank_startsToken _ (startsToken_append tg _ hg.1)]
    exact hg.2 0 _ hnd1
  have e2 : extractInt g (SkipWhiteSpace
      ⟨w1 ++ (tn ++ (magnitudesText ts ++ tail)), false⟩) =
      (n, ⟨magnitudesText ts ++ tail, false⟩) := by
    simp only [SkipWhiteSpace, Bool.false_eq_true, if_false]
    rw [hw1, skipBlank_startsToken _ (startsToken_append tn _ hn.1)]
    exact hn.2 g _ hnd2
  have hv := readVector_body c (resize c self.F n) ts tail
    (by rw [length_resize, hlen]) hts htail
  simp only [LoadNode.Read, hP, e1, e2, hfind, Bool.false_eq_true, if_false,
    LoadNode.Read.out, hv.2, hv.1, and_self]

/-! ## Writing -/

theorem put_nil (f : OStream) : f.put [] = f := by
  obtain ⟨out, room, fail⟩ := f
  cases fail with
  | true => simp [OStream.put]
  | false =>
    cases room with
    | none => simp [OStream.put]
    | some r => simp [OStream.put]

theorem put_put (f : OStream) (s t : List Char) : (f.put s).put t = f.put (s ++ t) := by
  obtain ⟨out, room, fail⟩ := f
  cases fail with
  | true => simp [OStream.put]
  | false =>
    cases room with
    | none => simp [OStream.put]
    | some r =>
      by_cases h1 : s.length ≤ r
      · by_cases h2 : t.length ≤ r - s.length
        · have h3 : s.length + t.length ≤ r := by omega
          simp [OStream.put, h1, h2, h3, Nat.sub_sub]
        · have h3 : ¬ s.length + t.length ≤ r := by omega
          simp [OStream.put, h1, h2, h3, List.take_append_eq_append_take,
            List.take_of_length_le h1]
      · have h3 : ¬ s.length + t.length ≤ r := by omega
        have h4 : r - s.length = 0 := by omega
        simp [OStream.put, h1, h3, List.take_append_eq_append_take, h4]

theorem insertVector_eq_put {α : Type} (c : FloatCodec α) :
    ∀ (F : List α) (f : OStream),
      insertVector c F f = f.put (List.intercalate [' '] (F.map c.insert)) := by
  intro F
  induction F with
  | nil => intro f; simp [insertVector, List.intercalate, put_nil]
  | cons x xs ih =>
    intro f
    cases xs with
    | nil => simp [insertVector, List.intercalate]
    | cons y ys =>
      rw [insertVector, ih, put_put, put_put]
      simp [List.intercalate]

/-- The two lines of `LoadNode::Write` amount to one insertion of their text. -/
theorem Write_eq {σ α : Type} (P : Superclass σ) (c : FloatCodec α) (OFID : Int)
    (self : LoadNode σ α) (f : OStream) (ofid : Int) :
    LoadNode.Write P c OFID self f ofid =
      match P.Write self.base f (if ofid < 0 then OFID else ofid) with
      | (f1, some e) => some (f1, some e)
      | (f1, none) =>
        match self.node with
        | none => none
        | some nd =>
          if (f1.put (recordText c nd self.F)).fail then
            some (f1.put (recordText c nd self.F), some (.ioFailure
              ⟨FILE, 119, "LoadNode::Write()", "Error writing FEM load!"⟩))
          else some (f1.put (recordText c nd self.F), none) := by
  have key : ∀ (f1 : OStream) (nd : Node),
      (insertVector c self.F (((((((f1.put ['\t']).put (intToChars nd.GN)).put
        "\t% GN of node on which the load acts".toList).put ['\n']).put ['\t']).put
        (natToChars self.F.length)).put [' '])).put
        "\t% Force vector (first number is the size of a vector)\n".toList =
      f1.put (recordText c nd self.F) := by
    intro f1 nd
    simp only [insertVector_eq_put, put_put, recordText]
    congr 1
    simp
  unfold LoadNode.Write
  rcases hP : P.Write self.base f (if ofid < 0 then OFID else ofid) with ⟨f1, _ | e⟩
  · cases hn : self.node with
    | none => simp [hP]
    | some nd => simp only [hP, key]
  · simp [hP]

theorem put_ok (f : OStream) (s : List Char) (h : (f.put s).fail = false) :
    f.fail = false ∧ (f.put s).out = f.out ++ s := by
  obtain ⟨out, room, fail⟩ := f
  cases fail with
  | true => simp [OStream.put] at h
  | false =>
    cases room with
    | none => simp [OStream.put]
    | some r =>
      by_cases h1 : s.length ≤ r
      · simp [OStream.put, h1]
      · simp [OStream.put, h1] at h

theorem put_fail_iff (f : OStream) (s : List Char) :
    (f.put s).fail = true ↔ f.fail = true ∨ ∃ r, f.room = some r ∧ r < s.length := by
  obtain ⟨out, room, fail⟩ := f
  cases fail with
  | true => simp [OStream.put]
  | false =>
    cases room with
    | none => simp [OStream.put]
    | some r =>
      by_cases h1 : s.length ≤ r
      · simp [OStream.put, h1]
      · simp [OStream.put, h1]
        omega

/-! ## Properties of `LoadNode::Write` -/

/-- C7: a negative `ofid` is replaced by the registered `OFID` before anything
is written: the call gives what the call with `OFID` gives, and it depends on
the parent's `Write` only through what the parent does when handed `OFID`. -/
theorem Write_negative_ofid {σ α : Type} (P : Superclass σ) (c : FloatCodec α) (OFID : Int)
    (self : LoadNode σ α) (f : OStream) (ofid : Int) (h : ofid < 0) :
    LoadNode.Write P c OFID self f ofid = LoadNode.Write P c OFID self f OFID ∧
      ∀ Q : Superclass σ, (∀ b g, Q.Write b g OFID = P.Write b g OFID) →
        LoadNode.Write Q c OFID self f ofid = LoadNode.Write P c OFID self f ofid := by
  constructor
  · simp only [LoadNode.Write, h, if_true, ite_self]
  · intro Q hQ
    simp only [LoadNode.Write, h, if_true, hQ]

/-- C8: for a load with a node, once the parent has written without throwing,
what `Write` sends to the stream for the force vector is a tab, a size field,
a blank, magnitudes separated by blanks, and the comment, where the size field
is the numeral of the length of `F` and there is one magnitude for each element
of `F`; on a stream that stays good this is the end of the text written. -/
theorem Write_size_field {σ α : Type} (P : Superclass σ) (c : FloatCodec α) (OFID : Int)
    (self : LoadNode σ α) (f : OStream) (ofid : Int) (nd : Node) (f1 : OStream)
    (hnode : self.node = some nd)
    (hP : P.Write self.base f (if ofid < 0 then OFID else ofid) = (f1, none)) :
    ∃ (pre size : List Char) (mags : List (List Char)) (t : Option FEMException),
      LoadNode.Write P c OFID self f ofid =
        some (f1.put (pre ++ ('\t' :: size ++ ' ' :: List.intercalate [' '] mags ++
          "\t% Force vector (first number is the size of a vector)\n".toList)), t) ∧
      ((f1.put (pre ++ ('\t' :: size ++ ' ' :: List.intercalate [' '] mags ++
          "\t% Force vector (first number is the size of a vector)\n".toList))).fail = false →
        (f1.put (pre ++ ('\t' :: size ++ ' ' :: List.intercalate [' '] mags ++
          "\t% Force vector (first number is the size of a vector)\n".toList))).out =
        f1.out ++ (pre ++ ('\t' :: size ++ ' ' :: List.intercalate [' '] mags ++
          "\t% Force vector (first number is the size of a vector)\n".toList))) ∧
      pre = '\t' :: intToChars nd.GN ++ "\t% GN of node on which the load acts\n".toList ∧
      mags = self.F.map c.insert ∧ mags.length = self.F.length ∧
      size = natToChars self.F.length ∧
      ofDigits (spanDigits (size ++ ' ' :: List.intercalate [' '] mags)).1 = mags.length := by
  have hT : recordText c nd self.F =
      ('\t' :: intToChars nd.GN ++ "\t% GN of node on which the load acts\n".toList) ++
        ('\t' :: natToChars self.F.length ++
          ' ' :: List.intercalate [' '] (self.F.map c.insert) ++
          "\t% Force vector (first number is the size of a vector)\n".toList) := by
    simp [recordText]
  have hW := Write_eq P c OFID self f ofid
  simp only [hP, hnode, hT] at hW
  have hd : ofDigits (spanDigits (natToChars self.F.length ++
      ' ' :: List.intercalate [' '] (self.F.map c.insert))).1 =
      (self.F.map c.insert).length := by
    rw [spanDigits_natToChars self.F.length
      (' ' :: List.intercalate [' '] (self.F.map c.insert)) rfl, List.length_map]
    exact (natDigits_spec _).2.2
  cases hf : (f1.put (('\t' :: intToChars nd.GN ++
      "\t% GN of node on which the load acts\n".toList) ++
      ('\t' :: natToChars self.F.length ++
        ' ' :: List.intercalate [' '] (self.F.map c.insert) ++
        "\t% Force vector (first number is the size of a vector)\n".toList))).fail with
  | true =>
    rw [hf] at hW
    exact ⟨_, _, _, _, hW, fun h => (put_ok f1 _ h).2, rfl, rfl, List.length_map _ _, rfl, hd⟩
  | false =>
    rw [hf] at hW
    exact ⟨_, _, _, _, hW, fun h => (put_ok f1 _ h).2, rfl, rfl, List.length_map _ _, rfl, hd⟩

/-- C9, as amended: for a load with a node, once the parent has written
without throwing, `Write` sends to the stream, after the parent's output, a
tab, the GN of the node and its comment on one line, then a tab, the length of
`F`, a blank, the magnitudes separated by blanks, and the comment of the force
vector, which reads `first number is the size of a vector`; on a stream that
stays good `Write` returns normally and the text written is the parent's
followed by this text. -/
theorem Write_text {σ α : Type} (P : Superclass σ) (c : FloatCodec α) (OFID : Int)
    (self : LoadNode σ α) (f : OStream) (ofid : Int) (nd : Node) (f1 : OStream)
    (hnode : self.node = some nd)
    (hP : P.Write self.base f (if ofid < 0 then OFID else ofid) = (f1, none)) :
    ∃ t, LoadNode.Write P c OFID self f ofid =
        some (f1.put ('\t' :: intToChars nd.GN ++
          "\t% GN of node on which the load acts\n".toList ++
          '\t' :: natToChars self.F.length ++
          ' ' :: List.intercalate [' '] (self.F.map c.insert) ++
          "\t% Force vector (first number is the size of a vector)\n".toList), t) ∧
      ((f1.put ('\t' :: intToChars nd.GN ++
          "\t% GN of node on which the load acts\n".toList ++
          '\t' :: natToChars self.F.length ++
          ' ' :: List.intercalate [' '] (self.F.map c.insert) ++
          "\t% Force vector (first number is the size of a vector)\n".toList)).fail = false →
        t = none ∧
        (f1.put ('\t' :: intToChars nd.GN ++
          "\t% GN of node on which the load acts\n".toList ++
          '\t' :: natToChars self.F.length ++
          ' ' :: List.intercalate [' '] (self.F.map c.insert) ++
          "\t% Force vector (first number is the size of a vector)\n".toList)).out =
        f1.out ++ ('\t' :: intToChars nd.GN ++
          "\t% GN of node on which the load acts\n".toList ++
          '\t' :: natToChars self.F.length ++
          ' ' :: List.intercalate [' '] (self.F.map c.insert) ++
          "\t% Force vector (first number is the size of a vector)\n".toList)) := by
  have hW := Write_eq P c OFID self f ofid
  simp only [hP, hnode, recordText] at hW
  cases hf : (f1.put ('\t' :: intToChars nd.GN ++
      "\t% GN of node on which the load acts\n".toList ++
      '\t' :: natToChars self.F.length ++
      ' ' :: List.intercalate [' '] (self.F.map c.insert) ++
      "\t% Force vector (first number is the size of a vector)\n".toList)).fail with
  | true =>
    rw [hf] at hW
    exact ⟨_, hW, fun h => Bool.noConfusion h⟩
  | false =>
    rw [hf] at hW
    exact ⟨_, hW, fun _ => ⟨rfl, (put_ok f1 _ hf).2⟩⟩

/-- C10: for a load with a node, once the parent has written without throwing,
`Write` throws the IO failure of `LoadNode::Write()` exactly when the stream
is failed after the text of its two lines has gone to it, returns normally
exactly when the stream is good then, throws nothing else, and the stream is
failed then exactly when it was failed before or the sink had no room for the
text. -/
theorem Write_failure_iff {σ α : Type} (P : Superclass σ) (c : FloatCodec α) (OFID : Int)
    (self : LoadNode σ α) (f : OStream) (ofid : Int) (nd : Node) (f1 : OStream)
    (hP : P.Write self.base f (if ofid < 0 then OFID else ofid) = (f1, none))
    (hnode : self.node = some nd) :
    ∃ t, LoadNode.Write P c OFID self f ofid = some (f1.put (recordText c nd self.F), t) ∧
      (t = some (.ioFailure ⟨FILE, 119, "LoadNode::Write()", "Error writing FEM load!"⟩) ↔
        (f1.put (recordText c nd self.F)).fail = true) ∧
      (t = none ↔ (f1.put (recordText c nd self.F)).fail = false) ∧
      (t = none ∨
        t = some (.ioFailure ⟨FILE, 119, "LoadNode::Write()", "Error writing FEM load!"⟩)) ∧
      ((f1.put (recordText c nd self.F)).fail = true ↔
        f1.fail = true ∨ ∃ r, f1.room = some r ∧ r < (recordText c nd self.F).length) := by
  rw [Write_eq]
  simp only [hP, hnode]
  cases hf : (f1.put (recordText c nd self.F)).fail with
  | true =>
    refine ⟨_, rfl, by simp, by simp, Or.inr rfl, ?_⟩
    rw [← put_fail_iff, hf]
  | false =>
    refine ⟨_, rfl, by simp, by simp, Or.inl rfl, ?_⟩
    rw [← put_fail_iff, hf]

/-! ## The steps of `LoadNode::Read` -/

/-- `Read` in terms of its three steps, once the parent has returned. -/
theorem Read_eq {σ α : Type} (P : Superclass σ) (c : FloatCodec α)
    (self : LoadNode σ α) (f : IStream) (info : ReadInfoType) (b : σ) (f1 : IStream)
    (hP : P.Read self.base f info = (b, f1, none)) :
    LoadNode.Read P c self f info =
      if (afterGN f1).2.fail then LoadNode.Read.out ⟨b, self.node, self.F⟩ (afterGN f1).2 else
      match info.m_node.Find (afterGN f1).1 with
      | .error e => ⟨⟨b, self.node, self.F⟩, (afterGN f1).2, some (.objectNotFound
          ⟨FILE, 79, "LoadNode::Read()", e.m_baseClassName, e.m_GN⟩)⟩
      | .ok nd =>
        if (afterLength f1).2.fail then
          LoadNode.Read.out ⟨b, some nd, self.F⟩ (afterLength f1).2
        else LoadNode.Read.out ⟨b, some nd, (afterVector c self.F f1).1⟩
          (afterVector c self.F f1).2 := by
  simp only [LoadNode.Read, hP, afterGN, afterLength, afterVector]

theorem range_of_ok (v n0 : Int) (rest : List Char)
    (h : (if INT_MIN ≤ v ∧ v ≤ INT_MAX then (v, (⟨rest, false⟩ : IStream))
      else (n0, ⟨rest, true⟩)).2.fail = false) :
    INT_MIN ≤ (if INT_MIN ≤ v ∧ v ≤ INT_MAX then (v, (⟨rest, false⟩ : IStream))
      else (n0, ⟨rest, true⟩)).1 ∧
    (if INT_MIN ≤ v ∧ v ≤ INT_MAX then (v, (⟨rest, false⟩ : IStream))
      else (n0, ⟨rest, true⟩)).1 ≤ INT_MAX := by
  by_cases hr : INT_MIN ≤ v ∧ v ≤ INT_MAX
  · rw [if_pos hr]
    exact hr
  · rw [if_neg hr] at h
    exact Bool.noConfusion h

theorem extractInt_ok (n0 : Int) (f : IStream) (h : (extractInt n0 f).2.fail = false) :
    INT_MIN ≤ (extractInt n0 f).1 ∧ (extractInt n0 f).1 ≤ INT_MAX := by
  cases hf : f.fail with
  | true =>
    unfold extractInt at h
    simp [hf] at h
  | false =>
    unfold extractInt at h ⊢
    simp only [hf, Bool.false_eq_true, if_false] at h ⊢
    split at h
    · simp at h
    · rename_i hds
      rw [if_neg hds]
      exact range_of_ok _ _ _ h

theorem ReadsInt_range (t : List Char) (g : Int) (h : ReadsInt t g) :
    INT_MIN ≤ g ∧ g ≤ INT_MAX := by
  have h1 := h.2 0 [] rfl
  have h2 := extractInt_ok 0 ⟨t ++ [], false⟩ (by rw [h1])
  rw [h1] at h2
  exact h2

theorem afterGN_text (w0 tg : List Char) (g : Int) (rest : List Char) (hw0 : Blank w0)
    (hg : ReadsInt tg g) (hrest : noDigit rest = true) :
    afterGN ⟨w0 ++ (tg ++ rest), false⟩ = (g, ⟨rest, false⟩) := by
  simp only [afterGN, SkipWhiteSpace, Bool.false_eq_true, if_false]
  rw [hw0, skipBlank_startsToken _ (startsToken_append tg _ hg.1)]
  exact hg.2 0 _ hrest

theorem afterLength_text (w0 tg w1 tn : List Char) (g n : Int) (rest : List Char)
    (hw0 : Blank w0) (hw1 : Blank w1) (hw1d : w1 ≠ [] ∧ noDigit w1 = true)
    (hg : ReadsInt tg g) (hn : ReadsInt tn n) (hrest : noDigit rest = true) :
    afterLength ⟨w0 ++ (tg ++ (w1 ++ (tn ++ rest))), false⟩ = (n, ⟨rest, false⟩) := by
  have hnd1 : noDigit (w1 ++ (tn ++ rest)) = true := by
    cases w1 with
    | nil => exact absurd rfl hw1d.1
    | cons ch w => simpa [noDigit] using hw1d.2
  simp only [afterLength, afterGN_text w0 tg g _ hw0 hg hnd1, SkipWhiteSpace,
    Bool.false_eq_true, if_false]
  rw [hw1, skipBlank_startsToken _ (startsToken_append tn _ hn.1)]
  exact hn.2 g _ hrest

theorem Find_of_mem (nodes : NodeArray) (g : Int) (h : ∃ nd ∈ nodes.items, nd.GN = g) :
    ∃ nd, nodes.Find g = .ok nd ∧ nd.GN = g ∧ nd ∈ nodes.items := by
  obtain ⟨nd0, hmem, hgn⟩ := h
  cases hf : nodes.items.find? (fun nd => nd.GN == g) with
  | none =>
    have := List.find?_eq_none.mp hf nd0 hmem
    simp [hgn] at this
  | some nd =>
    have h1 := List.find?_some hf
    have h2 := List.mem_of_find?_eq_some hf
    refine ⟨nd, ?_, by simpa using h1, h2⟩
    simp [NodeArray.Find, hf]

theorem Find_error (nodes : NodeArray) (g : Int) (e : FEMExceptionObjectNotFound)
    (h : nodes.Find g = .error e) :
    e.m_GN = g ∧ e.m_baseClassName = nodes.baseClassName ∧ ∀ nd ∈ nodes.items, nd.GN ≠ g := by
  unfold NodeArray.Find at h
  cases hf : nodes.items.find? (fun nd => nd.GN == g) with
  | none =>
    simp only [hf, Except.error.injEq] at h
    subst h
    refine ⟨rfl, rfl, ?_⟩
    intro nd hnd
    simpa using List.find?_eq_none.mp hf nd hnd
  | some nd => simp [hf] at h

/-! ## The text of a written record, as `Read` sees it -/

theorem intToChars_natCast (k : Nat) : intToChars (k : Int) = natToChars k := by
  have h : ¬ ((k : Int) < 0) := by omega
  simp [intToChars, h]

theorem extractInt_overflow (n0 : Int) (k : Nat) (rest : List Char) (hk : INT_MAX < (k : Int))
    (h : noDigit rest = true) :
    extractInt n0 ⟨natToChars k ++ rest, false⟩ = (n0, ⟨rest, true⟩) := by
  have hdrop := dropSpace_startsToken _ (startsToken_natToChars k rest)
  obtain ⟨hne, _, hval⟩ := natDigits_spec k
  obtain ⟨d, t, hd⟩ := natToChars_head k
  have hs2 : natToChars k ++ rest = digitChar d :: (t ++ rest) := by simp [hd]
  have hsp := spanDigits_natToChars k rest h
  unfold extractInt
  simp only [Bool.false_eq_true, if_false, hdrop]
  rw [hs2] at hsp ⊢
  simp only [digitChar_ne_minus, digitChar_ne_plus, Bool.or_self, Bool.false_eq_true,
    if_false, hsp, hne, hval]
  have : ¬ (INT_MIN ≤ (k : Int) ∧ (k : Int) ≤ INT_MAX) := by omega
  rw [if_neg this]

theorem magnitudesText_insert {α : Type} (c : FloatCodec α) (C : List Char) :
    ∀ F : List α, F ≠ [] →
      ' ' :: (List.intercalate [' '] (F.map c.insert) ++ C) =
        magnitudesText (F.map (fun x => ([' '], c.insert x, x))) ++ C := by
  intro F
  induction F with
  | nil => intro h; exact absurd rfl h
  | cons x xs ih =>
    intro _
    cases xs with
    | nil => simp [magnitudesText, List.intercalate]
    | cons y ys =>
      have := ih (by simp)
      simp only [List.map_cons, magnitudesText, List.intercalate, List.intersperse_cons_cons,
        List.flatten_cons, List.append_assoc, List.singleton_append, List.cons_append,
        List.nil_append] at this ⊢
      rw [← this]

theorem Blank_GN_comment : Blank "\t% GN of node on which the load acts\n\t".toList :=
  Blank_append ['\t'] _ (Blank_allSpace _ rfl)
    (Blank_append ('%' :: (" GN of node on which the load acts".toList ++ ['\n'])) ['\t']
      (Blank_comment _ (by decide)) (Blank_allSpace _ rfl))

/-- The text of a written record: a tab, the GN, the comment of the first line
and a tab, the length, and then the magnitudes, each after one blank. -/
theorem recordText_eq {α : Type} (c : FloatCodec α) (nd : Node) (F : List α) :
    recordText c nd F = ['\t'] ++ (intToChars nd.GN ++
      ("\t% GN of node on which the load acts\n\t".toList ++ (intToChars (F.length : Int) ++
        (magnitudesText (F.map (fun x => ([' '], c.insert x, x))) ++
          (if F.isEmpty then
            " \t% Force vector (first number is the size of a vector)\n".toList
          else "\t% Force vector (first number is the size of a vector)\n".toList))))) := by
  rw [intToChars_natCast]
  cases F with
  | nil => simp [recordText, magnitudesText, List.intercalate]
  | cons x xs =>
    simp only [List.isEmpty_cons, Bool.false_eq_true, if_false]
    rw [← magnitudesText_insert c _ (x :: xs) (by simp)]
    simp [recordText]

/-! ## The decimal numerals of the examples -/

theorem not_point_of_boundary (ch : Char) (t : List Char) (h : boundary (ch :: t) = true) :
    (ch == '.') = false := by
  simp only [boundary] at h
  cases hc : ch == '.' with
  | false => rfl
  | true =>
    have : ch = '.' := by simpa using hc
    rw [this] at h
    exact Bool.noConfusion h

theorem Reads_one_and_a_half : Reads decimalCodec "1.5".toList ⟨15, 1⟩ := by
  refine ⟨rfl, fun rest h => ?_⟩
  have hs := spanDigits_noDigit rest (noDigit_of_boundary rest h)
  simp [decimalCodec, Decimal.extract, spanDigits, digitVal, hs, ofDigits]

theorem Reads_minus_two_and_a_quarter : Reads decimalCodec "-2.25".toList ⟨-225, 2⟩ := by
  refine ⟨rfl, fun rest h => ?_⟩
  have hs := spanDigits_noDigit rest (noDigit_of_boundary rest h)
  simp [decimalCodec, Decimal.extract, spanDigits, digitVal, hs, ofDigits]

/-! ## Properties of `LoadNode::Read` -/

/-- C3: when the parent has returned, the first token is read as the integer
`g` and `Find` does not find `g`, `Read` throws the reference-resolution
failure of `LoadNode::Read()` with the base-class name `Find` reported and the
identifier `g`, and leaves the node reference and the force vector as they
were. -/
theorem Read_unresolved_node {σ α : Type} (P : Superclass σ) (c : FloatCodec α)
    (self : LoadNode σ α) (f : IStream) (info : ReadInfoType) (b : σ) (f1 : IStream)
    (g : Int) (e : FEMExceptionObjectNotFound)
    (hP : P.Read self.base f info = (b, f1, none))
    (hok : (afterGN f1).2.fail = false) (hg : (afterGN f1).1 = g)
    (hfind : info.m_node.Find g = .error e) :
    (LoadNode.Read P c self f info).thrown =
        some (.objectNotFound ⟨FILE, 79, "LoadNode::Read()", e.m_baseClassName, g⟩) ∧
      e.m_baseClassName = info.m_node.baseClassName ∧
      (LoadNode.Read P c self f info).self.node = self.node ∧
      (LoadNode.Read P c self f info).self.F = self.F := by
  have he := Find_error _ _ _ hfind
  rw [Read_eq P c self f info b f1 hP]
  simp only [hok, Bool.false_eq_true, if_false, hg, hfind, he.1, he.2.1, and_self]

/-- C4: when the parent has returned, each of the three parse steps that
leaves the stream failed ends `Read` with the IO failure of
`LoadNode::Read()`, and the later steps are not taken: a failure at the GN
leaves node and vector as they were, a failure at the length leaves the vector
as it was with the node resolved, and a failure in the magnitudes comes with
the node resolved; the magnitudes fail as soon as the extraction of one
element of the resized vector fails. -/
theorem Read_parse_failure {σ α : Type} (P : Superclass σ) (c : FloatCodec α)
    (self : LoadNode σ α) (f : IStream) (info : ReadInfoType) (b : σ) (f1 : IStream)
    (hP : P.Read self.base f info = (b, f1, none)) :
    ((afterGN f1).2.fail = true →
      (LoadNode.Read P c self f info).thrown = some readFailure ∧
      (LoadNode.Read P c self f info).f = (afterGN f1).2 ∧
      (LoadNode.Read P c self f info).self.node = self.node ∧
      (LoadNode.Read P c self f info).self.F = self.F) ∧
    (∀ nd, (afterGN f1).2.fail = false → info.m_node.Find (afterGN f1).1 = .ok nd →
      (afterLength f1).2.fail = true →
      (LoadNode.Read P c self f info).thrown = some readFailure ∧
      (LoadNode.Read P c self f info).f = (afterLength f1).2 ∧
      (LoadNode.Read P c self f info).self.node = some nd ∧
      (LoadNode.Read P c self f info).self.F = self.F) ∧
    (∀ nd, (afterGN f1).2.fail = false → info.m_node.Find (afterGN f1).1 = .ok nd →
      (afterLength f1).2.fail = false → (afterVector c self.F f1).2.fail = true →
      (LoadNode.Read P c self f info).thrown = some readFailure ∧
      (LoadNode.Read P c self f info).self.node = some nd) ∧
    (∀ nd G1 x G2, (afterGN f1).2.fail = false → info.m_node.Find (afterGN f1).1 = .ok nd →
      (afterLength f1).2.fail = false →
      resize c self.F (afterLength f1).1 = G1 ++ x :: G2 →
      (extractFloat c x (readVector c G1 (SkipWhiteSpace (afterLength f1).2)).2).2.fail = true →
      (LoadNode.Read P c self f info).thrown = some readFailure ∧
      (LoadNode.Read P c self f info).self.node = some nd) := by
  rw [Read_eq P c self f info b f1 hP]
  refine ⟨?_, ?_, ?_, ?_⟩
  · intro h1
    simp [h1, LoadNode.Read.out, readFailure]
  · intro nd h1 h2 h3
    simp [h1, h2, h3, LoadNode.Read.out, readFailure]
  · intro nd h1 h2 h3 h4
    simp [h1, h2, h3, h4, LoadNode.Read.out, readFailure]
  · intro nd G1 x G2 h1 h2 h3 hG hx
    have h4 : (afterVector c self.F f1).2.fail = true := by
      rw [afterVector, hG]
      exact readVector_element_failed c G1 G2 x _ hx
    simp [h1, h2, h3, h4, LoadNode.Read.out, readFailure]

/-- C5: when the parent has returned: if the GN is read and `Find` does not
find it, `Read` throws the reference-resolution failure and no IO failure,
whatever the stream holds after the GN; if the GN is not read, `Read` throws
the IO failure and no reference-resolution failure; and an IO failure of
`Read` never comes after a failed resolution. -/
theorem Read_failure_kinds {σ α : Type} (P : Superclass σ) (c : FloatCodec α)
    (self : LoadNode σ α) (f : IStream) (info : ReadInfoType) (b : σ) (f1 : IStream)
    (hP : P.Read self.base f info = (b, f1, none)) :
    (∀ e, (afterGN f1).2.fail = false → info.m_node.Find (afterGN f1).1 = .error e →
      (LoadNode.Read P c self f info).thrown =
        some (.objectNotFound ⟨FILE, 79, "LoadNode::Read()", e.m_baseClassName, e.m_GN⟩) ∧
      ∀ x, (LoadNode.Read P c self f info).thrown ≠ some (.ioFailure x)) ∧
    (∀ (w0 tg : List Char) (g : Int) (tail : List Char) e, Blank w0 →
      ReadsInt tg g → noDigit tail = true →
      f1 = ⟨w0 ++ (tg ++ tail), false⟩ → info.m_node.Find g = .error e →
      (LoadNode.Read P c self f info).thrown =
        some (.objectNotFound ⟨FILE, 79, "LoadNode::Read()", e.m_baseClassName, g⟩)) ∧
    ((afterGN f1).2.fail = true →
      (LoadNode.Read P c self f info).thrown = some readFailure ∧
      ∀ x, (LoadNode.Read P c self f info).thrown ≠ some (.objectNotFound x)) ∧
    (∀ x, (LoadNode.Read P c self f info).thrown = some (.ioFailure x) →
      (afterGN f1).2.fail = true ∨ ∃ nd, info.m_node.Find (afterGN f1).1 = .ok nd) := by
  rw [Read_eq P c self f info b f1 hP]
  refine ⟨?_, ?_, ?_, ?_⟩
  · intro e h1 h2
    simp [h1, h2]
  · intro w0 tg g tail e hw0 hg htail hf1 hfind
    have he := Find_error _ _ _ hfind
    subst hf1
    simp [afterGN_text w0 tg g tail hw0 hg htail, hfind, he.1]
  · intro h1
    simp [h1, LoadNode.Read.out, readFailure]
  · intro x hx
    by_cases h1 : (afterGN f1).2.fail = true
    · exact Or.inl h1
    · right
      cases hfind : info.m_node.Find (afterGN f1).1 with
      | ok nd => exact ⟨nd, rfl⟩
      | error e => simp [h1, hfind] at hx

/-- C2: on a stream that, after the parent's fields, holds a token read as the
integer `g`, a token read as the integer `n ≥ 0` and exactly `n` magnitudes,
the tokens separated by white space, and with a node of GN `g` in the
collection, `Read` returns without failure, the node reference is the node
`Find g` gives, and the force vector is the sequence of the magnitudes, of
length `n`. -/
theorem Read_well_formed_record {σ α : Type} (P : Superclass σ) (c : FloatCodec α)
    (self : LoadNode σ α) (f : IStream) (info : ReadInfoType) (b : σ) (g n : Int)
    (w0 tg w1 tn : List Char) (ts : List (List Char × List Char × α)) (tail : List Char)
    (hP : P.Read self.base f info =
      (b, ⟨w0 ++ (tg ++ (w1 ++ (tn ++ (magnitudesText ts ++ tail)))), false⟩, none))
    (hg : ReadsInt tg g) (hn : ReadsInt tn n) (hn0 : 0 ≤ n)
    (hlen : (ts.length : Int) = n)
    (hw0 : allSpace w0 = true) (hw1 : allSpace w1 = true ∧ w1 ≠ [])
    (hts : ∀ u ∈ ts, allSpace u.1 = true ∧ u.1 ≠ [] ∧ Reads c u.2.1 u.2.2)
    (htail : boundary tail = true)
    (hmem : ∃ nd ∈ info.m_node.items, nd.GN = g) :
    (LoadNode.Read P c self f info).thrown = none ∧
      (∃ nd, info.m_node.Find g = .ok nd ∧ nd.GN = g ∧
        (LoadNode.Read P c self f info).self.node = some nd) ∧
      (LoadNode.Read P c self f info).self.F = ts.map (fun u => u.2.2) ∧
      ((LoadNode.Read P c self f info).self.F.length : Int) = n := by
  obtain ⟨nd, hfind, hgn, _⟩ := Find_of_mem info.m_node g hmem
  have hnd : noDigit w1 = true := by
    cases w1 with
    | nil => exact absurd rfl hw1.2
    | cons ch w => exact noDigit_of_boundary _ (boundary_append _ [] hw1.1 hw1.2 ▸ by simp)
  have hl : ts.length = (n % UINT_RANGE).toNat := by
    have h1 : n % UINT_RANGE = n := by
      apply Int.emod_eq_of_lt hn0
      have := (ReadsInt_range tn n hn).2
      simp only [INT_MAX, UINT_RANGE] at this ⊢
      omega
    rw [h1, ← hlen]
    simp
  obtain ⟨h1, h2, h3, _⟩ := Read_record P c self f info b g n w0 tg w1 tn ts tail nd hP hg
    hn hl (Blank_allSpace w0 hw0) (Blank_allSpace w1 hw1.1) ⟨hw1.2, hnd⟩ hts htail hfind
  refine ⟨h1, ⟨nd, hfind, hgn, h2⟩, h3, ?_⟩
  rw [h3, List.length_map, hlen]

/-- C1, as amended: for a load `L` on a node of the collection whose force
vector has at most `INT_MAX` magnitudes, each printed as a token that reads
back as itself, with the parent's text written by the parent and taken back by
the parent, `Write` on an empty sink returns normally with the parent's text
followed by the two lines of the load, and `Read` on that text returns without
failure with a node of the same GN and the same force vector. -/
theorem Read_Write_round_trip {σ α : Type} (P : Superclass σ) (c : FloatCodec α) (OFID : Int)
    (L M : LoadNode σ α) (nd : Node) (nodes : NodeArray) (ofid : Int) (pw wp : List Char)
    (b : σ)
    (hnode : L.node = some nd) (hmem : nd ∈ nodes.items)
    (hGN : INT_MIN ≤ nd.GN ∧ nd.GN ≤ INT_MAX) (hlen : (L.F.length : Int) ≤ INT_MAX)
    (hcodec : ∀ x ∈ L.F, Reads c (c.insert x) x)
    (hW : P.Write L.base ⟨[], none, false⟩ (if ofid < 0 then OFID else ofid) =
      (⟨pw, none, false⟩, none))
    (hwp : Blank wp)
    (hR : P.Read M.base ⟨pw ++ recordText c nd L.F, false⟩ ⟨nodes⟩ =
      (b, ⟨wp ++ recordText c nd L.F, false⟩, none)) :
    LoadNode.Write P c OFID L ⟨[], none, false⟩ ofid =
        some (⟨pw ++ recordText c nd L.F, none, false⟩, none) ∧
      (LoadNode.Read P c M ⟨pw ++ recordText c nd L.F, false⟩ ⟨nodes⟩).thrown = none ∧
      (∃ nd', (LoadNode.Read P c M ⟨pw ++ recordText c nd L.F, false⟩ ⟨nodes⟩).self.node =
        some nd' ∧ nd'.GN = nd.GN) ∧
      (LoadNode.Read P c M ⟨pw ++ recordText c nd L.F, false⟩ ⟨nodes⟩).self.F = L.F := by
  constructor
  · rw [Write_eq]
    simp [hW, hnode, OStream.put]
  · obtain ⟨nd', hfind, hgn, _⟩ := Find_of_mem nodes nd.GN ⟨nd, hmem, rfl⟩
    have hlen' : (L.F.map (fun x => ([' '], c.insert x, x))).length =
        ((L.F.length : Int) % UINT_RANGE).toNat := by
      have h1 : (L.F.length : Int) % UINT_RANGE = L.F.length := by
        apply Int.emod_eq_of_lt (by omega)
        simp only [INT_MAX, UINT_RANGE] at hlen ⊢
        omega
      rw [h1]
      simp
    have hts : ∀ u ∈ L.F.map (fun x => (([' '] : List Char), c.insert x, x)),
        allSpace u.1 = true ∧ u.1 ≠ [] ∧ Reads c u.2.1 u.2.2 := by
      intro u hu
      obtain ⟨x, hx, rfl⟩ := List.mem_map.mp hu
      exact ⟨rfl, by simp, hcodec x hx⟩
    have htail : boundary (if L.F.isEmpty then
        " \t% Force vector (first number is the size of a vector)\n".toList
        else "\t% Force vector (first number is the size of a vector)\n".toList) = true := by
      split <;> rfl
    have hmin : INT_MIN ≤ (L.F.length : Int) := by
      simp only [INT_MIN]
      omega
    obtain ⟨h1, h2, h3, _⟩ := Read_record P c M ⟨pw ++ recordText c nd L.F, false⟩ ⟨nodes⟩ b
      nd.GN (L.F.length : Int)
      (wp ++ ['\t']) (intToChars nd.GN) "\t% GN of node on which the load acts\n\t".toList
      (intToChars (L.F.length : Int))
      (L.F.map (fun x => ([' '], c.insert x, x)))
      (if L.F.isEmpty then " \t% Force vector (first number is the size of a vector)\n".toList
        else "\t% Force vector (first number is the size of a vector)\n".toList) nd'
      (hR.trans (by rw [recordText_eq c nd L.F, List.append_assoc]))
      (ReadsInt_intToChars _ hGN) (ReadsInt_intToChars _ ⟨hmin, hlen⟩) hlen'
      (Blank_append wp _ hwp (Blank_allSpace _ rfl)) Blank_GN_comment ⟨by decide, rfl⟩
      hts htail hfind
    refine ⟨h1, ⟨nd', h2, hgn⟩, ?_⟩
    rw [h3, List.map_map]
    exact List.map_id _

/-! ## Worked examples and limits -/

set_option maxRecDepth 100000

/-- C9, the claim as written fails: the load on node 3 with the force vector
`[1.5, -2.25]` is written with the comment `first number is the size of a
vector`; the text differs from the one the specification gives, and the
comment `first number is its length` is nowhere in it. -/
theorem Write_text_differs :
    LoadNode.Write noFields decimalCodec 0
        (⟨(), some ⟨3⟩, [⟨15, 1⟩, ⟨-225, 2⟩]⟩ : LoadNode Unit Decimal) ⟨[], none, false⟩ 0 =
      some (⟨("\t3\t% GN of node on which the load acts\n" ++
        "\t2 1.5 -2.25\t% Force vector (first number is the size of a vector)\n").toList,
        none, false⟩, none) ∧
    ("\t3\t% GN of node on which the load acts\n" ++
        "\t2 1.5 -2.25\t% Force vector (first number is the size of a vector)\n").toList ≠
      specRecordText decimalCodec ⟨3⟩ [⟨15, 1⟩, ⟨-225, 2⟩] ∧
    ¬ ("% Force vector (first number is its length)".toList <:+:
      ("\t3\t% GN of node on which the load acts\n" ++
        "\t2 1.5 -2.25\t% Force vector (first number is the size of a vector)\n").toList) := by
  refine ⟨by decide, by decide, by decide⟩

/-- A force vector with more than `INT_MAX` elements is written, and its size
field is not read back. -/
theorem Read_Write_zerosLoad (k : Nat) (hk : INT_MAX < (k : Int)) :
    LoadNode.Write noFields decimalCodec 0 (zerosLoad k) ⟨[], none, false⟩ 0 =
        some (⟨recordText decimalCodec ⟨3⟩ (zerosLoad k).F, none, false⟩, none) ∧
      (LoadNode.Read noFields decimalCodec emptyLoad
        ⟨recordText decimalCodec ⟨3⟩ (zerosLoad k).F, false⟩ oneNode).thrown =
        some readFailure := by
  constructor
  · rw [Write_eq]
    simp [noFields, zerosLoad, OStream.put]
  · have hlen : (zerosLoad k).F.length = k := by simp [zerosLoad]
    have htext := recordText_eq decimalCodec ⟨3⟩ (zerosLoad k).F
    rw [hlen, intToChars_natCast] at htext
    have hnd : noDigit (magnitudesText ((zerosLoad k).F.map
        (fun x => (([' '] : List Char), decimalCodec.insert x, x))) ++
        (if (zerosLoad k).F.isEmpty then
          " \t% Force vector (first number is the size of a vector)\n".toList
        else "\t% Force vector (first number is the size of a vector)\n".toList)) = true := by
      cases hF : (zerosLoad k).F with
      | nil => rfl
      | cons x xs => rfl
    have h1 : afterGN ⟨recordText decimalCodec ⟨3⟩ (zerosLoad k).F, false⟩ =
        (3, ⟨"\t% GN of node on which the load acts\n\t".toList ++ (natToChars k ++
          (magnitudesText ((zerosLoad k).F.map
            (fun x => (([' '] : List Char), decimalCodec.insert x, x))) ++
          (if (zerosLoad k).F.isEmpty then
            " \t% Force vector (first number is the size of a vector)\n".toList
          else "\t% Force vector (first number is the size of a vector)\n".toList))),
          false⟩) := by
      rw [htext]
      exact afterGN_text ['\t'] (intToChars 3) 3 _ (Blank_allSpace _ rfl)
        (ReadsInt_intToChars 3 (by decide)) rfl
    have h2 : (afterLength ⟨recordText decimalCodec ⟨3⟩ (zerosLoad k).F, false⟩).2.fail =
        true := by
      rw [afterLength, h1]
      simp only [SkipWhiteSpace, Bool.false_eq_true, if_false]
      rw [Blank_GN_comment, skipBlank_startsToken _ (startsToken_natToChars k _),
        extractInt_overflow 3 k _ hk hnd]
    rw [Read_eq noFields decimalCodec emptyLoad _ oneNode () _ rfl]
    have hfind : oneNode.m_node.Find 3 = .ok ⟨3⟩ := rfl
    simp only [h1, Bool.false_eq_true, if_false, hfind, h2, if_true, LoadNode.Read.out,
      readFailure]

/-- C1, the claim as written fails: a load on node 3 whose force vector has
2147483648 elements is written without failure, and `Read` on the text written
fails with the IO failure, the size field being no `int`. -/
theorem Read_Write_long_vector :
    LoadNode.Write noFields decimalCodec 0 (zerosLoad 2147483648) ⟨[], none, false⟩ 0 =
        some (⟨recordText decimalCodec ⟨3⟩ (zerosLoad 2147483648).F, none, false⟩, none) ∧
      (LoadNode.Read noFields decimalCodec emptyLoad
        ⟨recordText decimalCodec ⟨3⟩ (zerosLoad 2147483648).F, false⟩ oneNode).thrown =
        some readFailure :=
  Read_Write_zerosLoad 2147483648 (by decide)

/-- Witness of C1: `exampleLoad` is written as `exampleText` and read back
from it. -/
theorem Read_Write_round_trip_witness :
    LoadNode.Write lightObject decimalCodec 0 exampleLoad ⟨[], none, false⟩ (-1) =
        some (⟨exampleText, none, false⟩, none) ∧
      (LoadNode.Read lightObject decimalCodec freshLoad ⟨exampleText, false⟩ oneNode).thrown =
        none ∧
      (LoadNode.Read lightObject decimalCodec freshLoad ⟨exampleText, false⟩
        oneNode).self.node = some ⟨3⟩ ∧
      (LoadNode.Read lightObject decimalCodec freshLoad ⟨exampleText, false⟩ oneNode).self.F =
        [⟨15, 1⟩, ⟨-225, 2⟩] := by
  have hcodec : ∀ x ∈ exampleLoad.F, Reads decimalCodec (decimalCodec.insert x) x := by
    intro x hx
    simp only [exampleLoad, List.mem_cons, List.mem_singleton, List.not_mem_nil, or_false] at hx
    rcases hx with rfl | rfl
    · exact Reads_one_and_a_half
    · exact Reads_minus_two_and_a_quarter
  have hwp : Blank "\t% Global object number\n".toList :=
    Blank_append ['\t'] _ (Blank_allSpace _ rfl)
      (Blank_comment " Global object number".toList (by decide))
  have htext : "\t1\t% Global object number\n".toList ++
      recordText decimalCodec ⟨3⟩ exampleLoad.F = exampleText := by decide
  have h := Read_Write_round_trip lightObject decimalCodec 0 exampleLoad freshLoad ⟨3⟩
    ⟨[⟨3⟩], "Node"⟩ (-1) "\t1\t% Global object number\n".toList
    "\t% Global object number\n".toList 1 rfl (by decide) (by decide) (by decide) hcodec
    (by decide) hwp (by decide)
  rw [htext] at h
  obtain ⟨hW, hT, ⟨nd, hn, _⟩, hF⟩ := h
  refine ⟨hW, hT, by decide, hF⟩

/-- Witness of C2, the end-to-end example of the specification: with the
collection of the one node of GN 3 and the body `3`, new line, `2 1.5 -2.25`,
the load has the node of GN 3 and the force vector `[1.5, -2.25]` of length
2. -/
theorem Read_well_formed_record_witness :
    (LoadNode.Read noFields decimalCodec emptyLoad ⟨"3\n2 1.5 -2.25".toList, false⟩
        oneNode).thrown = none ∧
      (LoadNode.Read noFields decimalCodec emptyLoad ⟨"3\n2 1.5 -2.25".toList, false⟩
        oneNode).self.node = some ⟨3⟩ ∧
      (LoadNode.Read noFields decimalCodec emptyLoad ⟨"3\n2 1.5 -2.25".toList, false⟩
        oneNode).self.F = [⟨15, 1⟩, ⟨-225, 2⟩] ∧
      ((LoadNode.Read noFields decimalCodec emptyLoad ⟨"3\n2 1.5 -2.25".toList, false⟩
        oneNode).self.F.length : Int) = 2 := by
  have hts : ∀ u ∈ [(([' '] : List Char), "1.5".toList, (⟨15, 1⟩ : Decimal)),
      ([' '], "-2.25".toList, ⟨-225, 2⟩)],
      allSpace u.1 = true ∧ u.1 ≠ [] ∧ Reads decimalCodec u.2.1 u.2.2 := by
    intro u hu
    simp only [List.mem_cons, List.mem_singleton, List.not_mem_nil, or_false] at hu
    rcases hu with rfl | rfl
    · exact ⟨rfl, by decide, Reads_one_and_a_half⟩
    · exact ⟨rfl, by decide, Reads_minus_two_and_a_quarter⟩
  have h := Read_well_formed_record noFields decimalCodec emptyLoad
    ⟨"3\n2 1.5 -2.25".toList, false⟩ oneNode () 3 2 [] ['3'] ['\n'] ['2']
    [([' '], "1.5".toList, ⟨15, 1⟩), ([' '], "-2.25".toList, ⟨-225, 2⟩)] []
    (by decide) (ReadsInt_intToChars 3 (by decide)) (ReadsInt_intToChars 2 (by decide))
    (by decide) rfl rfl ⟨rfl, by decide⟩ hts rfl ⟨⟨3⟩, by decide, rfl⟩
  obtain ⟨h1, ⟨nd, hfind, _, hnode⟩, hF, hl⟩ := h
  have hnd : nd = ⟨3⟩ := by
    have : oneNode.m_node.Find 3 = .ok ⟨3⟩ := rfl
    rw [this] at hfind
    exact (Except.ok.inj hfind).symm
  rw [hnd] at hnode
  exact ⟨h1, hnode, hF, hl⟩

/-- Witness of C3, the example of the specification: a stream that refers to
GN 42 against a collection without such a node fails with the
reference-resolution failure carrying 42, the node reference staying unset. -/
theorem Read_unresolved_node_witness :
    (LoadNode.Read noFields decimalCodec emptyLoad ⟨"42\n2 1.0 2.0".toList, false⟩
        oneNode).thrown =
        some (.objectNotFound ⟨FILE, 79, "LoadNode::Read()", "Node", 42⟩) ∧
      (LoadNode.Read noFields decimalCodec emptyLoad ⟨"42\n2 1.0 2.0".toList, false⟩
        oneNode).self.node = none ∧
      (LoadNode.Read noFields decimalCodec emptyLoad ⟨"42\n2 1.0 2.0".toList, false⟩
        oneNode).self.F = [] := by
  have h := Read_unresolved_node noFields decimalCodec emptyLoad
    ⟨"42\n2 1.0 2.0".toList, false⟩ oneNode () ⟨"42\n2 1.0 2.0".toList, false⟩ 42
    ⟨"itkFEMPArray.h", 0, "FEMPArray::Find() const", "Node", 42⟩ rfl (by decide) (by decide)
    rfl
  exact ⟨h.1, h.2.2.1, h.2.2.2⟩

/-- Witness of C4: with node 7 in the collection, a stream without a GN fails
with the IO failure and the node unset; the stream of the specification, `7`,
new line, `notanumber 1.0 2.0`, fails with the IO failure after node 7 has
been resolved, the vector untouched; and a stream whose second magnitude is no
number fails with the IO failure. -/
theorem Read_parse_failure_witness :
    ((LoadNode.Read noFields decimalCodec emptyLoad ⟨"x 1 2".toList, false⟩
        nodeSeven).thrown = some readFailure ∧
      (LoadNode.Read noFields decimalCodec emptyLoad ⟨"x 1 2".toList, false⟩
        nodeSeven).self.node = none) ∧
    ((LoadNode.Read noFields decimalCodec emptyLoad ⟨"7\nnotanumber 1.0 2.0".toList, false⟩
        nodeSeven).thrown = some readFailure ∧
      (LoadNode.Read noFields decimalCodec emptyLoad ⟨"7\nnotanumber 1.0 2.0".toList, false⟩
        nodeSeven).self.node = some ⟨7⟩ ∧
      (LoadNode.Read noFields decimalCodec emptyLoad ⟨"7\nnotanumber 1.0 2.0".toList, false⟩
        nodeSeven).self.F = []) ∧
    ((LoadNode.Read noFields decimalCodec emptyLoad ⟨"7\n2 1.0 abc".toList, false⟩
        nodeSeven).thrown = some readFailure ∧
      (LoadNode.Read noFields decimalCodec emptyLoad ⟨"7\n2 1.0 abc".toList, false⟩
        nodeSeven).self.node = some ⟨7⟩) := by
  have a := (Read_parse_failure noFields decimalCodec emptyLoad ⟨"x 1 2".toList, false⟩
    nodeSeven () ⟨"x 1 2".toList, false⟩ rfl).1 (by decide)
  have b := (Read_parse_failure noFields decimalCodec emptyLoad
    ⟨"7\nnotanumber 1.0 2.0".toList, false⟩ nodeSeven ()
    ⟨"7\nnotanumber 1.0 2.0".toList, false⟩ rfl).2.1 ⟨7⟩ (by decide) rfl (by decide)
  have d := (Read_parse_failure noFields decimalCodec emptyLoad ⟨"7\n2 1.0 abc".toList, false⟩
    nodeSeven () ⟨"7\n2 1.0 abc".toList, false⟩ rfl).2.2.1 ⟨7⟩ (by decide) rfl (by decide)
    (by decide)
  exact ⟨⟨a.1, a.2.2.1⟩, ⟨b.1, b.2.2.1, b.2.2.2⟩, d⟩

/-- Witness of C5: a stream that refers to GN 42, with nothing sensible after
it, fails with the reference-resolution failure and no IO failure; a stream
without a GN fails with the IO failure and no reference-resolution failure. -/
theorem Read_failure_kinds_witness :
    ((LoadNode.Read noFields decimalCodec emptyLoad ⟨"42 garbage".toList, false⟩
        oneNode).thrown =
        some (.objectNotFound ⟨FILE, 79, "LoadNode::Read()", "Node", 42⟩) ∧
      ∀ x, (LoadNode.Read noFields decimalCodec emptyLoad ⟨"42 garbage".toList, false⟩
        oneNode).thrown ≠ some (.ioFailure x)) ∧
    ((LoadNode.Read noFields decimalCodec emptyLoad ⟨"garbage".toList, false⟩
        oneNode).thrown = some readFailure ∧
      ∀ x, (LoadNode.Read noFields decimalCodec emptyLoad ⟨"garbage".toList, false⟩
        oneNode).thrown ≠ some (.objectNotFound x)) := by
  have a := (Read_failure_kinds noFields decimalCodec emptyLoad ⟨"42 garbage".toList, false⟩
    oneNode () ⟨"42 garbage".toList, false⟩ rfl).1
    ⟨"itkFEMPArray.h", 0, "FEMPArray::Find() const", "Node", 42⟩ (by decide) rfl
  have b := (Read_failure_kinds noFields decimalCodec emptyLoad ⟨"garbage".toList, false⟩
    oneNode () ⟨"garbage".toList, false⟩ rfl).2.2.1 (by decide)
  exact ⟨a, b⟩

/-- Witness of C7: with the registered identifier 5, writing `exampleLoad`
with `ofid = -1` gives what writing it with `ofid = 5` gives. -/
theorem Write_negative_ofid_witness :
    (-1 : Int) < 0 ∧
      LoadNode.Write lightObject decimalCodec 5 exampleLoad ⟨[], none, false⟩ (-1) =
        LoadNode.Write lightObject decimalCodec 5 exampleLoad ⟨[], none, false⟩ 5 :=
  ⟨by decide, (Write_negative_ofid lightObject decimalCodec 5 exampleLoad ⟨[], none, false⟩
    (-1) (by decide)).1⟩

/-- Witness of C8: in writing `exampleLoad` the size field is `2` and two
magnitudes follow it. -/
theorem Write_size_field_witness :
    ∃ (pre size : List Char) (mags : List (List Char)) (t : Option FEMException),
      LoadNode.Write lightObject decimalCodec 0 exampleLoad ⟨[], none, false⟩ (-1) =
        some ((OStream.mk "\t1\t% Global object number\n".toList none false).put
          (pre ++ ('\t' :: size ++ ' ' :: List.intercalate [' '] mags ++
          "\t% Force vector (first number is the size of a vector)\n".toList)), t) ∧
      mags = ["1.5".toList, "-2.25".toList] ∧ mags.length = 2 ∧ size = ['2'] := by
  obtain ⟨pre, size, mags, t, h1, _, _, h2, h3, h4, _⟩ := Write_size_field lightObject
    decimalCodec 0 exampleLoad ⟨[], none, false⟩ (-1) ⟨3⟩
    ⟨"\t1\t% Global object number\n".toList, none, false⟩ rfl (by decide)
  exact ⟨pre, size, mags, t, h1, h2, h3, h4⟩

/-- Witness of C9: `exampleLoad` is written as `exampleText`, the parent's
line followed by the two lines of the load. -/
theorem Write_text_witness :
    LoadNode.Write lightObject decimalCodec 0 exampleLoad ⟨[], none, false⟩ (-1) =
        some (⟨exampleText, none, false⟩, none) ∧
      exampleText = "\t1\t% Global object number\n".toList ++ ('\t' :: intToChars 3 ++
        "\t% GN of node on which the load acts\n".toList ++
        '\t' :: natToChars 2 ++ ' ' :: List.intercalate [' '] ["1.5".toList, "-2.25".toList] ++
        "\t% Force vector (first number is the size of a vector)\n".toList) := by
  obtain ⟨t, hW, h⟩ := Write_text lightObject decimalCodec 0 exampleLoad ⟨[], none, false⟩
    (-1) ⟨3⟩ ⟨"\t1\t% Global object number\n".toList, none, false⟩ rfl (by decide)
  obtain ⟨ht, _⟩ := h (by decide)
  subst ht
  exact ⟨hW.trans (by decide), by decide⟩

/-- Witness of C10: on a sink with room for 10 characters, writing the load on
node 3 leaves the stream failed after 10 characters and throws the IO failure
of `LoadNode::Write()`. -/
theorem Write_failure_iff_witness :
    ∃ t, LoadNode.Write noFields decimalCodec 0 (zerosLoad 2) ⟨[], some 10, false⟩ 0 =
        some (⟨"\t3\t% GN of".toList, some 0, true⟩, t) ∧
      t = some (.ioFailure ⟨FILE, 119, "LoadNode::Write()", "Error writing FEM load!"⟩) := by
  obtain ⟨t, hW, h1, _, _, _⟩ := Write_failure_iff noFields decimalCodec 0 (zerosLoad 2)
    ⟨[], some 10, false⟩ 0 ⟨3⟩ ⟨[], some 10, false⟩ rfl rfl
  have hput : OStream.put ⟨[], some 10, false⟩ (recordText decimalCodec ⟨3⟩ (zerosLoad 2).F) =
      ⟨"\t3\t% GN of".toList, some 0, true⟩ := by decide
  rw [hput] at hW h1
  exact ⟨t, hW, h1.mpr rfl⟩

/-! ## What a failed `Read` leaves behind -/

/-- C11: when the parent has returned, `Read` is not atomic.  If the GN is read
and resolved to the node `nd` and the length is not read, `Read` throws the IO
failure and the node reference is `nd` whatever it was before, the force
vector being as it was.  If the length is read and the magnitudes are not,
`Read` throws the IO failure with the node reference `nd` and the force vector
as `F.resize(n)` and the extractions left it: its length is the length of the
resized vector, the length token modulo `UINT_RANGE`, the token itself when
that is not negative.  A failure at the GN and a failure of the resolution
leave node reference and force vector as they were, and a failure after which
one of the two differs from before is a failure at the length or in the
magnitudes, after the node has been resolved. -/
theorem Read_not_atomic {σ α : Type} (P : Superclass σ) (c : FloatCodec α)
    (self : LoadNode σ α) (f : IStream) (info : ReadInfoType) (b : σ) (f1 : IStream)
    (hP : P.Read self.base f info = (b, f1, none)) :
    (∀ nd, (afterGN f1).2.fail = false → info.m_node.Find (afterGN f1).1 = .ok nd →
      (afterLength f1).2.fail = true →
      (LoadNode.Read P c self f info).thrown = some readFailure ∧
      (LoadNode.Read P c self f info).self.node = some nd ∧
      (LoadNode.Read P c self f info).self.F = self.F) ∧
    (∀ nd, (afterGN f1).2.fail = false → info.m_node.Find (afterGN f1).1 = .ok nd →
      (afterLength f1).2.fail = false → (afterVector c self.F f1).2.fail = true →
      (LoadNode.Read P c self f info).thrown = some readFailure ∧
      (LoadNode.Read P c self f info).self.node = some nd ∧
      (LoadNode.Read P c self f info).self.F = (afterVector c self.F f1).1 ∧
      (LoadNode.Read P c self f info).self.F.length =
        (resize c self.F (lengthToken f1)).length ∧
      ((LoadNode.Read P c self f info).self.F.length : Int) = lengthToken f1 % UINT_RANGE ∧
      (0 ≤ lengthToken f1 →
        ((LoadNode.Read P c self f info).self.F.length : Int) = lengthToken f1)) ∧
    ((afterGN f1).2.fail = true →
      (LoadNode.Read P c self f info).thrown = some readFailure ∧
      (LoadNode.Read P c self f info).self.node = self.node ∧
      (LoadNode.Read P c self f info).self.F = self.F) ∧
    (∀ e, (afterGN f1).2.fail = false → info.m_node.Find (afterGN f1).1 = .error e →
      (LoadNode.Read P c self f info).thrown =
        some (.objectNotFound ⟨FILE, 79, "LoadNode::Read()", e.m_baseClassName, e.m_GN⟩) ∧
      (LoadNode.Read P c self f info).self.node = self.node ∧
      (LoadNode.Read P c self f info).self.F = self.F) ∧
    (∀ e, (LoadNode.Read P c self f info).thrown = some e →
      ((LoadNode.Read P c self f info).self.node ≠ self.node ∨
        (LoadNode.Read P c self f info).self.F ≠ self.F) →
      (afterGN f1).2.fail = false ∧ (∃ nd, info.m_node.Find (afterGN f1).1 = .ok nd) ∧
      ((afterLength f1).2.fail = true ∨ (afterVector c self.F f1).2.fail = true)) := by
  rw [Read_eq P c self f info b f1 hP]
  refine ⟨?_, ?_, ?_, ?_, ?_⟩
  · intro nd h1 h2 h3
    simp [h1, h2, h3, LoadNode.Read.out, readFailure]
  · intro nd h1 h2 h3 h4
    have hr := extractInt_ok _ _ (by simpa [afterLength] using h3)
    have hlen : (afterVector c self.F f1).1.length =
        (lengthToken f1 % UINT_RANGE).toNat := by
      simp only [afterVector, length_readVector, length_resize, lengthToken]
    have hnn : 0 ≤ lengthToken f1 % UINT_RANGE := Int.emod_nonneg _ (by decide)
    simp only [h1, h2, h3, h4, LoadNode.Read.out, Bool.false_eq_true, if_false, if_true,
      readFailure, true_and, hlen, length_resize]
    refine ⟨Int.toNat_of_nonneg hnn, fun h0 => ?_⟩
    rw [Int.toNat_of_nonneg hnn]
    have hr' : lengthToken f1 ≤ INT_MAX := hr.2
    apply Int.emod_eq_of_lt h0
    simp only [INT_MAX, UINT_RANGE] at hr' ⊢
    omega
  · intro h1
    simp [h1, LoadNode.Read.out, readFailure]
  · intro e h1 h2
    simp [h1, h2]
  · intro e he hch
    by_cases h1 : (afterGN f1).2.fail = true
    · simp [h1, LoadNode.Read.out] at hch
    · have h1' : (afterGN f1).2.fail = false := by simpa using h1
      cases hfind : info.m_node.Find (afterGN f1).1 with
      | error x => simp [h1, hfind] at hch
      | ok nd =>
        refine ⟨h1', ⟨nd, rfl⟩, ?_⟩
        by_cases h2 : (afterLength f1).2.fail = true
        · exact Or.inl h2
        · right
          by_cases h3 : (afterVector c self.F f1).2.fail = true
          · exact h3
          · simp [h1, hfind, h2, h3, LoadNode.Read.out] at he

/-- Witness of C11: with node 7 in the collection and a load that refers to
node 3 with the force vector `[1.5]`: on the stream `7`, new line,
`notanumber 1.0 2.0`, `Read` throws the IO failure and the load refers to node
7, its vector unchanged; on the stream `7`, new line, `2 1.0 abc`, `Read`
throws the IO failure and the vector has length 2, the magnitude read and an
element not assigned; on a stream without a GN, and on a stream with the GN
42 that the collection does not have, node 3 and the vector `[1.5]` stay. -/
theorem Read_not_atomic_witness :
    ((LoadNode.Read noFields decimalCodec staleLoad ⟨"7\nnotanumber 1.0 2.0".toList, false⟩
        nodeSeven).thrown = some readFailure ∧
      (LoadNode.Read noFields decimalCodec staleLoad ⟨"7\nnotanumber 1.0 2.0".toList, false⟩
        nodeSeven).self.node = some ⟨7⟩ ∧
      (LoadNode.Read noFields decimalCodec staleLoad ⟨"7\nnotanumber 1.0 2.0".toList, false⟩
        nodeSeven).self.F = [⟨15, 1⟩]) ∧
    ((LoadNode.Read noFields decimalCodec staleLoad ⟨"7\n2 1.0 abc".toList, false⟩
        nodeSeven).thrown = some readFailure ∧
      (LoadNode.Read noFields decimalCodec staleLoad ⟨"7\n2 1.0 abc".toList, false⟩
        nodeSeven).self.node = some ⟨7⟩ ∧
      (LoadNode.Read noFields decimalCodec staleLoad ⟨"7\n2 1.0 abc".toList, false⟩
        nodeSeven).self.F = [⟨10, 1⟩, ⟨0, 0⟩] ∧
      ((LoadNode.Read noFields decimalCodec staleLoad ⟨"7\n2 1.0 abc".toList, false⟩
        nodeSeven).self.F.length : Int) = 2) ∧
    ((LoadNode.Read noFields decimalCodec staleLoad ⟨"x 1 2".toList, false⟩
        nodeSeven).thrown = some readFailure ∧
      (LoadNode.Read noFields decimalCodec staleLoad ⟨"x 1 2".toList, false⟩
        nodeSeven).self.node = some ⟨3⟩ ∧
      (LoadNode.Read noFields decimalCodec staleLoad ⟨"x 1 2".toList, false⟩
        nodeSeven).self.F = [⟨15, 1⟩]) ∧
    ((LoadNode.Read noFields decimalCodec staleLoad ⟨"42\n2 1.0 2.0".toList, false⟩
        nodeSeven).thrown =
        some (.objectNotFound ⟨FILE, 79, "LoadNode::Read()", "Node", 42⟩) ∧
      (LoadNode.Read noFields decimalCodec staleLoad ⟨"42\n2 1.0 2.0".toList, false⟩
        nodeSeven).self.node = some ⟨3⟩ ∧
      (LoadNode.Read noFields decimalCodec staleLoad ⟨"42\n2 1.0 2.0".toList, false⟩
        nodeSeven).self.F = [⟨15, 1⟩]) := by
  have a := (Read_not_atomic noFields decimalCodec staleLoad
    ⟨"7\nnotanumber 1.0 2.0".toList, false⟩ nodeSeven ()
    ⟨"7\nnotanumber 1.0 2.0".toList, false⟩ rfl).1 ⟨7⟩ (by decide) rfl (by decide)
  have b := (Read_not_atomic noFields decimalCodec staleLoad ⟨"7\n2 1.0 abc".toList, false⟩
    nodeSeven () ⟨"7\n2 1.0 abc".toList, false⟩ rfl).2.1 ⟨7⟩ (by decide) rfl (by decide)
    (by decide)
  have d := (Read_not_atomic noFields decimalCodec staleLoad ⟨"x 1 2".toList, false⟩
    nodeSeven () ⟨"x 1 2".toList, false⟩ rfl).2.2.1 (by decide)
  have e := (Read_not_atomic noFields decimalCodec staleLoad ⟨"42\n2 1.0 2.0".toList, false⟩
    nodeSeven () ⟨"42\n2 1.0 2.0".toList, false⟩ rfl).2.2.2.1
    ⟨"itkFEMPArray.h", 0, "FEMPArray::Find() const", "Node", 42⟩ (by decide) rfl
  exact ⟨a, ⟨b.1, b.2.1, b.2.2.1.trans (by decide), b.2.2.2.2.2 (by decide)⟩, d, e⟩

end itk.fem
